import Mathlib

/-!
# libbitcoin: the Berkeley DB blockchain store (`src/blockchain/bdb/bdb_blockchain.cpp`)

A shallow embedding of the block store front end: the two Berkeley DB tables
with their hash secondaries, the record readers `read` / `proto_read`, the block
reconstruction `fetch_block_impl`, the fetch operations, `setup`, `do_store`,
`do_fetch_block_locator` and the secondary-key callbacks.

Stateful code is written as explicit state passing.  Every operation returns the
list of observable events it performs, in program order: the life cycle of each
`txn_guard`, the calls on the environment, and the invocation of the completion
handler with its arguments.  A call into Berkeley DB either returns or throws
(`Outcome`); an exception is caught nowhere in the source, so it ends the
operation where it is thrown.

The file also embeds the integer helpers `variable_size`, `is_integral_size`,
`to_half`, `lo_bit`, `is_even` and `is_odd` of
`include/bitcoin/system/constants.hpp`, and the AVX2 `set` / `get` functions and
the 32-bit lane shifts and rotations of
`include/bitcoin/system/intrinsics/xcpu/functional256.hpp`, where a 256-bit word is
a natural number below `2 ^ 256`.
-/

namespace libbitcoin

/-! ## Data model -/

/-- Raw bytes (`data_chunk`, `std::string` payloads, the contents of a `Dbt`). -/
abbrev data_chunk := List Nat

/-- A content digest (`hash_digest`, a fixed array of bytes). -/
abbrev hash_digest := List Nat

/-- Modelled from the spec: `message::transaction` is declared in a header
elsewhere in the repository; the data model gives it ordered inputs and outputs. -/
structure message_transaction where
  version : Nat
  locktime : Nat
  inputs : List data_chunk
  outputs : List data_chunk
deriving DecidableEq, Repr

/-- Modelled from the spec: `message::block` is declared in a header elsewhere in
the repository; the data model gives it the header fields (version, previous
block digest, merkle root, timestamp, difficulty bits, nonce) and the ordered
sequence of transactions.  The source uses the member `transactions`. -/
structure message_block where
  version : Nat
  previous_block_hash : hash_digest
  merkle_root : hash_digest
  timestamp : Nat
  bits : Nat
  nonce : Nat
  transactions : List message_transaction
deriving DecidableEq, Repr

/-- The value of the expression `message::block()`: every header field zero and
no transactions. -/
def message_block_default : message_block :=
  { version := 0
    previous_block_hash := List.replicate 32 0
    merkle_root := List.replicate 32 0
    timestamp := 0
    bits := 0
    nonce := 0
    transactions := [] }

/-- Modelled from the spec: `protobuf::Block` is generated code kept elsewhere in
the repository; a block record holds the encoded header and the ordered list of
transaction-index keys.  The source reads the field `transactions()`. -/
structure protobuf_Block where
  header : data_chunk
  transactions : List Nat
deriving DecidableEq, Repr

/-- Modelled from the spec: `protobuf::Transaction` is generated code kept
elsewhere in the repository; a transaction record holds the encoded transaction. -/
structure protobuf_Transaction where
  payload : data_chunk
deriving DecidableEq, Repr

/-- The two values of `std::error_code` the source passes to a handler:
`std::error_code()` and `error::missing_object`. -/
inductive error_code where
  | success
  | missing_object
deriving DecidableEq, Repr

/-- The enumeration `block_status` (declared elsewhere in the repository); the
source only ever passes `block_status::orphan`. -/
inductive block_status where
  | orphan
  | confirmed
  | bad
deriving DecidableEq, Repr

/-- The `Index` template argument of `proto_read` and `fetch_block_impl`: a depth
or transaction index (`size_t`, `uint32_t`) or a digest. -/
inductive Index where
  | num (n : Nat)
  | hash (h : hash_digest)
deriving DecidableEq, Repr

/-! ## Berkeley DB -/

/-- The four database handles of `bdb_blockchain` (members `db_blocks_`,
`db_blocks_hash_`, `db_txs_`, `db_txs_hash_`). -/
inductive Db where
  | db_blocks_
  | db_blocks_hash_
  | db_txs_
  | db_txs_hash_
deriving DecidableEq, Repr

/-- A B-tree table: key bytes to value bytes, in insertion order. -/
abbrev Table := List (data_chunk × data_chunk)

/-- The contents of the environment: the primary tables `block-data` and
`tx-data` (key to record) and their secondaries `block-hash` and `tx-hash`
(secondary key to primary key).  The secondaries are kept as data of their own so
that states in which they disagree with the primaries can be described. -/
structure bdb_env where
  blocks : Table
  blocks_hash : Table
  txs : Table
  txs_hash : Table
deriving DecidableEq, Repr

/-- The environment with four empty tables. -/
def bdb_env.empty : bdb_env :=
  { blocks := [], blocks_hash := [], txs := [], txs_hash := [] }

/-- First value stored under a key. -/
def Table.find (key : data_chunk) : Table → Option data_chunk
  | [] => none
  | (k, v) :: rest => if k = key then some v else Table.find key rest

/-- The error numbers of Berkeley DB that matter here: `0`, `DB_NOTFOUND`, and
`DB_SECONDARY_BAD` (a secondary entry whose primary record does not exist). -/
inductive db_ret where
  | ok
  | DB_NOTFOUND
  | DB_SECONDARY_BAD
deriving DecidableEq, Repr

/-- How a call that reaches Berkeley DB ends: it returns a value, or it is left by
a `DbException` carrying an error number.  The environment is built with
`new DbEnv(0)` and the databases with `new Db(env_, 0)`, so errors are thrown;
the flag `DB_CXX_NO_EXCEPTIONS` is handed to `DbEnv::open`, not to the
constructor, and does not change that. -/
inductive Outcome (α : Type) where
  | returns (value : α)
  | throws (errno : db_ret)
deriving DecidableEq, Repr

/-- The call `Db::get(txn, key, data, 0)`: on a primary handle the record under
the key; on a secondary handle the primary record the secondary entry points to.
It returns `0` or `DB_NOTFOUND`; a secondary entry without its primary record is
the error `DB_SECONDARY_BAD`, which is thrown. -/
def Db.get (e : bdb_env) (db : Db) (key : data_chunk) : Outcome (db_ret × data_chunk) :=
  match db with
  | .db_blocks_ =>
    match Table.find key e.blocks with
    | some v => .returns (.ok, v)
    | none => .returns (.DB_NOTFOUND, [])
  | .db_txs_ =>
    match Table.find key e.txs with
    | some v => .returns (.ok, v)
    | none => .returns (.DB_NOTFOUND, [])
  | .db_blocks_hash_ =>
    match Table.find key e.blocks_hash with
    | none => .returns (.DB_NOTFOUND, [])
    | some pk =>
      match Table.find pk e.blocks with
      | some v => .returns (.ok, v)
      | none => .throws .DB_SECONDARY_BAD
  | .db_txs_hash_ =>
    match Table.find key e.txs_hash with
    | none => .returns (.DB_NOTFOUND, [])
    | some pk =>
      match Table.find pk e.txs with
      | some v => .returns (.ok, v)
      | none => .throws .DB_SECONDARY_BAD

/-- The call `Db::truncate(nullptr, 0, 0)`: empties the table; on a primary
handle it empties the associated secondary as well.  Called without a
transaction handle, so its effect is not part of any `txn_guard`.  The library
refuses the call on a secondary handle, which leaves the tables as they are; the
source truncates the two primaries only. -/
def Db.truncate (e : bdb_env) : Db → bdb_env
  | .db_blocks_ => { e with blocks := [], blocks_hash := [] }
  | .db_txs_ => { e with txs := [], txs_hash := [] }
  | .db_blocks_hash_ => e
  | .db_txs_hash_ => e

/-! ## Orphan pool and collaborators -/

/-- Modelled from the spec: `orphans_pool` is declared elsewhere in the
repository; it is a holding area bounded by a configured capacity. -/
structure orphans_pool where
  capacity : Nat
  pool : List message_block
deriving DecidableEq, Repr

/-- The state behind a `bdb_blockchain` handle. -/
structure bdb_blockchain where
  env : bdb_env
  orphans : orphans_pool
deriving DecidableEq, Repr

/-- The functions the source calls that are defined elsewhere in the repository:
the key encoder, the protobuf parser and converters, the digest functions, the
genesis block, `bdb_common`, the locator sampler, the orphan pool and the
organizer. -/
structure Collaborators where
  /-- Maps an index to key bytes: `readable_data_type::set(index)`. -/
  key_set : Index → data_chunk
  /-- Parses a block record: `protobuf::Block::ParseFromIstream` (result code ignored by the source). -/
  parse_block : data_chunk → protobuf_Block
  /-- Parses a transaction record: `protobuf::Transaction::ParseFromIstream`. -/
  parse_tx : data_chunk → protobuf_Transaction
  protobuf_to_block_header : protobuf_Block → message_block
  protobuf_to_transaction : protobuf_Transaction → message_transaction
  hash_block_header : message_block → hash_digest
  hash_transaction : message_transaction → hash_digest
  genesis_block : message_block
  /-- Writes a block: `bdb_common::save_block(txn, depth, block)`, giving the result flag and
  the tables as seen inside the transaction afterwards. -/
  save_block : bdb_env → Nat → message_block → Bool × bdb_env
  /-- Tip depth: `bdb_common::find_last_block_depth(txn)`, a `uint32_t`. -/
  find_last_block_depth : bdb_env → Nat
  block_locator_indices : Nat → List Nat
  /-- Pool insertion: `orphans_pool::add(detail)`, whether the pool took the block, and the pool afterwards. -/
  orphans_add : orphans_pool → message_block → Bool × orphans_pool
  /-- One organizer pass: `organizer::start()`, the state afterwards and the number of blocks the
  pass accepted into the chain. -/
  organize_start : bdb_blockchain → bdb_blockchain × Nat

/-! ## Observable events -/

/-- What an operation does that its caller or the environment can observe.  The
event `exception` closes a trace: the operation is left by a `DbException` that
nothing in it catches. -/
inductive Event where
  | txn_begin (id : Nat)
  | txn_commit (id : Nat)
  | txn_abort (id : Nat)
  | db_truncate (db : Db)
  | save_block (depth : Nat) (ok : Bool)
  | orphans_add (accepted : Bool)
  | organize_start (accepted : Nat)
  | txn_checkpoint
  | log_error
  | log_fatal (index : Nat)
  | handle_fetch (ec : error_code) (blk : message_block)
  | handle_fetch_locator (ec : error_code) (locator : List hash_digest)
  | handle_store (ec : error_code) (status : block_status)
  | handle_fetch_balance (ec : error_code) (value : Nat)
  | exception (errno : db_ret)
deriving DecidableEq, Repr

/-! ## Reading records -/

/-- The function `read(database, txn, key, ss)`: a `get` that returns non-zero gives
`false` and leaves the stream alone; otherwise the record bytes are appended to
the stream.  An exception of `get` passes through. -/
def read (e : bdb_env) (database : Db) (key : data_chunk) (ss : data_chunk) :
    Outcome (Bool × data_chunk) :=
  match Db.get e database key with
  | Outcome.throws errno => Outcome.throws errno
  | Outcome.returns r =>
    if r.1 ≠ db_ret.ok then Outcome.returns (false, ss)
    else Outcome.returns (true, ss ++ r.2)

/-- The template `proto_read(database, txn, index, proto_object)`: `none` is the
result `false` (the object is left untouched), `some p` is the result `true` with
the object parsed from the stream.  An exception of `read` passes through. -/
def proto_read {ProtoType : Type} (parse : data_chunk → ProtoType) (c : Collaborators)
    (e : bdb_env) (database : Db) (index : Index) : Outcome (Option ProtoType) :=
  let key := c.key_set index
  match read e database key [] with
  | Outcome.throws errno => Outcome.throws errno
  | Outcome.returns r =>
    if !r.1 then Outcome.returns none
    else Outcome.returns (some (parse r.2))

/-- The loop of `fetch_block_impl` over `proto_block.transactions()`; the loop
variable is a `uint32_t`. -/
def fetch_block_txs (c : Collaborators) (e : bdb_env) (db_txs : Db) :
    List Nat → message_block → Outcome (Bool × message_block)
  | [], serial_block => Outcome.returns (true, serial_block)
  | tx_index :: rest, serial_block =>
    match proto_read c.parse_tx c e db_txs (Index.num (tx_index % 2 ^ 32)) with
    | Outcome.throws errno => Outcome.throws errno
    | Outcome.returns none => Outcome.returns (false, serial_block)
    | Outcome.returns (some proto_tx) =>
      fetch_block_txs c e db_txs rest
        { serial_block with
          transactions := serial_block.transactions ++ [c.protobuf_to_transaction proto_tx] }

/-- The template `fetch_block_impl(db_block_x, db_txs, txn, index, serial_block)`: the
result flag and the value of the in/out argument `serial_block` on return. -/
def fetch_block_impl (c : Collaborators) (e : bdb_env) (db_block_x db_txs : Db)
    (index : Index) (serial_block : message_block) : Outcome (Bool × message_block) :=
  match proto_read c.parse_block c e db_block_x index with
  | Outcome.throws errno => Outcome.throws errno
  | Outcome.returns none => Outcome.returns (false, serial_block)
  | Outcome.returns (some proto_block) =>
    fetch_block_txs c e db_txs proto_block.transactions (c.protobuf_to_block_header proto_block)

/-! ## Fetch operations -/

/-- The method `bdb_blockchain::fetch_block_by_depth(depth, handle_fetch)`.  It has
no handler for exceptions: one thrown below it ends the method right there. -/
def fetch_block_by_depth (c : Collaborators) (e : bdb_env) (depth : Nat) : List Event :=
  match fetch_block_impl c e Db.db_blocks_ Db.db_txs_ (Index.num depth)
      message_block_default with
  | Outcome.throws errno => [Event.txn_begin 0, Event.exception errno]
  | Outcome.returns r =>
    if !r.1 then
      [Event.txn_begin 0, Event.txn_abort 0,
        Event.handle_fetch error_code.missing_object message_block_default]
    else
      [Event.txn_begin 0, Event.txn_commit 0, Event.handle_fetch error_code.success r.2]

/-- The method `bdb_blockchain::fetch_block_by_hash(block_hash, handle_fetch)`.  It has
no handler for exceptions: one thrown below it ends the method right there. -/
def fetch_block_by_hash (c : Collaborators) (e : bdb_env) (block_hash : hash_digest) :
    List Event :=
  match fetch_block_impl c e Db.db_blocks_hash_ Db.db_txs_ (Index.hash block_hash)
      message_block_default with
  | Outcome.throws errno => [Event.txn_begin 0, Event.exception errno]
  | Outcome.returns r =>
    if !r.1 then
      [Event.txn_begin 0, Event.txn_abort 0,
        Event.handle_fetch error_code.missing_object message_block_default]
    else
      [Event.txn_begin 0, Event.txn_commit 0, Event.handle_fetch error_code.success r.2]

/-! ## Setup -/

/-- The method `bdb_blockchain::initialize(prefix)`: opens the environment found under
the path and the four databases inside a `txn_guard` of its own, which it commits,
and creates an orphan pool of capacity 10.  Opening changes no record. -/
def bdb_blockchain_init (on_disk : bdb_env) : bdb_blockchain × List Event :=
  ({ env := on_disk, orphans := { capacity := 10, pool := [] } },
    [Event.txn_begin 0, Event.txn_commit 0])

/-- The static method `bdb_blockchain::setup(prefix)`: the returned flag, the committed
tables afterwards, and the events.  The `txn_guard` created by `initialize` is
number 0, the one `setup` creates is number 1. -/
def setup (c : Collaborators) (on_disk : bdb_env) : Bool × bdb_env × List Event :=
  let handle := bdb_blockchain_init on_disk
  let e1 := Db.truncate handle.1.env Db.db_blocks_
  let e2 := Db.truncate e1 Db.db_txs_
  let r := c.save_block e2 0 c.genesis_block
  let before := handle.2 ++
    [Event.db_truncate Db.db_blocks_, Event.db_truncate Db.db_txs_,
      Event.txn_begin 1, Event.save_block 0 r.1]
  if !r.1 then (false, e2, before ++ [Event.txn_abort 1])
  else (true, r.2, before ++ [Event.txn_commit 1])

/-! ## Secondary-key callbacks -/

/-- A `Dbt`: a pointer to bytes together with a size; the pointer is represented
by the bytes behind it when the callback returns. -/
structure Dbt where
  data : data_chunk
  size : Nat
deriving DecidableEq, Repr

/-- The bytes a `Dbt` denotes: the first `size` bytes behind the pointer. -/
def Dbt.bytes (d : Dbt) : data_chunk := d.data.take d.size

/-- The result of a secondary-key callback: the returned `int`, the `second_key`
output argument, and the global `second_hash` afterwards. -/
structure callback_result where
  ret : Int
  second_key : Dbt
  second_hash : hash_digest
deriving DecidableEq, Repr

/-- The callback `get_block_hash(Db*, const Dbt*, const Dbt* data, Dbt* second_key)`; the
first argument after the collaborators is the value the global `second_hash`
holds on entry, and `_second_key` is what the output argument holds on entry. -/
def get_block_hash (c : Collaborators) (_second_hash : hash_digest) (_db : Db) (_key : Dbt)
    (data : Dbt) (_second_key : Dbt) : callback_result :=
  let ss := data.bytes
  let proto_block := c.parse_block ss
  let serial_block := c.protobuf_to_block_header proto_block
  let second_hash := c.hash_block_header serial_block
  { ret := 0
    second_key := { data := second_hash, size := second_hash.length }
    second_hash := second_hash }

/-- The callback `get_tx_hash(Db*, const Dbt*, const Dbt* data, Dbt* second_key)`. -/
def get_tx_hash (c : Collaborators) (_second_hash : hash_digest) (_db : Db) (_key : Dbt)
    (data : Dbt) (_second_key : Dbt) : callback_result :=
  let ss := data.bytes
  let proto_tx := c.parse_tx ss
  let serial_tx := c.protobuf_to_transaction proto_tx
  let second_hash := c.hash_transaction serial_tx
  { ret := 0
    second_key := { data := second_hash, size := second_hash.length }
    second_hash := second_hash }

/-! ## Store -/

/-- The method `bdb_blockchain::do_store(stored_block, handle_store)`: the state
afterwards and the events.  The value `orphans_->add` returns is not looked at,
and neither is the outcome of `organize_->start()`. -/
def do_store (c : Collaborators) (s : bdb_blockchain) (stored_block : message_block) :
    bdb_blockchain × List Event :=
  let stored_detail := stored_block
  let a := c.orphans_add s.orphans stored_detail
  let s1 : bdb_blockchain := { s with orphans := a.2 }
  let o := c.organize_start s1
  (o.1,
    [Event.orphans_add a.1, Event.organize_start o.2, Event.txn_checkpoint,
      Event.handle_store error_code.success block_status.orphan])

/-! ## Block locator -/

/-- The loop of `do_fetch_block_locator` over the sampled indices, with the indices
handed to `proto_read` written down as it goes (third argument and second
component): `error i` when the block record at index `i` cannot be read, otherwise
the locator. -/
def fetch_locator_hashes_run (c : Collaborators) (e : bdb_env) :
    List Nat → List hash_digest → List Nat →
      Outcome (Except Nat (List hash_digest) × List Nat)
  | [], locator, reads => Outcome.returns (Except.ok locator, reads)
  | current_index :: rest, locator, reads =>
    match proto_read c.parse_block c e Db.db_blocks_ (Index.num current_index) with
    | Outcome.throws errno => Outcome.throws errno
    | Outcome.returns none => Outcome.returns (Except.error current_index, reads ++ [current_index])
    | Outcome.returns (some proto_block) =>
      let current_hash := c.hash_block_header (c.protobuf_to_block_header proto_block)
      fetch_locator_hashes_run c e rest (locator ++ [current_hash]) (reads ++ [current_index])

/-- The loop of `do_fetch_block_locator` over the sampled indices: `error i` when the
block record at index `i` cannot be read, otherwise the locator. -/
def fetch_locator_hashes (c : Collaborators) (e : bdb_env) :
    List Nat → List hash_digest → Outcome (Except Nat (List hash_digest))
  | [], locator => Outcome.returns (Except.ok locator)
  | current_index :: rest, locator =>
    match proto_read c.parse_block c e Db.db_blocks_ (Index.num current_index) with
    | Outcome.throws errno => Outcome.throws errno
    | Outcome.returns none => Outcome.returns (Except.error current_index)
    | Outcome.returns (some proto_block) =>
      let current_hash := c.hash_block_header (c.protobuf_to_block_header proto_block)
      fetch_locator_hashes c e rest (locator ++ [current_hash])

/-- The method `bdb_blockchain::do_fetch_block_locator(handle_fetch)`. -/
def do_fetch_block_locator (c : Collaborators) (e : bdb_env) : List Event :=
  let last_block_depth := c.find_last_block_depth e % 2 ^ 32
  if last_block_depth = 2 ^ 32 - 1 then
    [Event.txn_begin 0, Event.log_error,
      Event.handle_fetch_locator error_code.missing_object []]
  else
    match fetch_locator_hashes c e (c.block_locator_indices last_block_depth) [] with
    | Outcome.throws errno => [Event.txn_begin 0, Event.exception errno]
    | Outcome.returns (Except.error current_index) =>
      [Event.txn_begin 0, Event.log_fatal current_index,
        Event.handle_fetch_locator error_code.missing_object []]
    | Outcome.returns (Except.ok locator) =>
      [Event.txn_begin 0, Event.txn_commit 0,
        Event.handle_fetch_locator error_code.success locator]

/-- The overloads `bdb_blockchain::fetch_block(depth, handler)` and
`bdb_blockchain::fetch_block(block_hash, handler)`: each posts the matching
method to the service, which runs it. -/
def fetch_block (c : Collaborators) (e : bdb_env) : Index → List Event
  | Index.num depth => fetch_block_by_depth c e depth
  | Index.hash block_hash => fetch_block_by_hash c e block_hash

/-- The block database each `fetch_block` overload reads: `db_blocks_` for a
depth, `db_blocks_hash_` for a digest. -/
def fetch_block_db : Index → Db
  | Index.num _ => Db.db_blocks_
  | Index.hash _ => Db.db_blocks_hash_

/-- The digest `do_fetch_block_locator` computes for a depth: the header digest of
the block record stored under the key of that depth (empty when there is none). -/
def header_digest_at (c : Collaborators) (e : bdb_env) (depth : Nat) : hash_digest :=
  match Table.find (c.key_set (Index.num depth)) e.blocks with
  | some record => c.hash_block_header (c.protobuf_to_block_header (c.parse_block record))
  | none => []

/-- A run of `do_fetch_block_locator` with its calls on the store written down: the
events, the depth handed to `block_locator_indices` (none when the call is not
reached) and the indices whose block record is read. -/
structure locator_run where
  events : List Event
  sampled_from : Option Nat
  reads : List Nat
deriving DecidableEq, Repr

/-- The method `bdb_blockchain::do_fetch_block_locator(handle_fetch)`, recording also
the call of `block_locator_indices` and the reads of block records.  The events
and the reads both come out of the one pass `fetch_locator_hashes_run` over the
sampled indices. -/
def do_fetch_block_locator_run (c : Collaborators) (e : bdb_env) : locator_run :=
  let last_block_depth := c.find_last_block_depth e % 2 ^ 32
  if last_block_depth = 2 ^ 32 - 1 then
    { events :=
        [Event.txn_begin 0, Event.log_error,
          Event.handle_fetch_locator error_code.missing_object []]
      sampled_from := none
      reads := [] }
  else
    match fetch_locator_hashes_run c e (c.block_locator_indices last_block_depth) [] [] with
    | Outcome.throws errno =>
      { events := [Event.txn_begin 0, Event.exception errno]
        sampled_from := some last_block_depth
        reads := [] }
    | Outcome.returns (Except.error current_index, reads) =>
      { events :=
          [Event.txn_begin 0, Event.log_fatal current_index,
            Event.handle_fetch_locator error_code.missing_object []]
        sampled_from := some last_block_depth
        reads := reads }
    | Outcome.returns (Except.ok locator, reads) =>
      { events :=
          [Event.txn_begin 0, Event.txn_commit 0,
            Event.handle_fetch_locator error_code.success locator]
        sampled_from := some last_block_depth
        reads := reads }

/-- The secondary index Berkeley DB maintains for `db_blocks_` once
`db_blocks_->associate(txn, db_blocks_hash_, get_block_hash, 0)` is in force: one
entry for every primary record, its key the bytes the callback `get_block_hash`
leaves in `second_key` for that record, its value the primary key.  The second
argument is what the global `second_hash` holds before the first call. -/
def associate_blocks_hash (c : Collaborators) : Table → hash_digest → Table
  | [], _ => []
  | (key, data) :: rest, second_hash =>
    let r := get_block_hash c second_hash Db.db_blocks_
      { data := key, size := key.length } { data := data, size := data.length }
      { data := [], size := 0 }
    (r.second_key.bytes, key) :: associate_blocks_hash c rest r.second_hash

/-- Modelled from the spec: the loop of `block_locator_indices`, which is defined
elsewhere in the repository.  Starting at the tip every depth is included while
the count of entries is below the dense window of 10; from then on the stride
doubles with every entry; the walk ends when depth 0 is reached or passed, and
depth 0 closes the sequence.  The first argument bounds the number of rounds. -/
def block_locator_loop : Nat → Nat → Nat → Nat → List Nat
  | 0, _, _, _ => []
  | fuel + 1, i, step, start =>
    if i = 0 then [0]
    else
      let step1 := if 10 ≤ start then step * 2 else step
      i :: block_locator_loop fuel (i - step1) step1 (start + 1)

/-- Modelled from the spec: the sampler `block_locator_indices(top_depth)`, which is
defined elsewhere in the repository: the ordered sequence of depths sampled from
the tip backward, dense for the 10 most recent entries, then with a doubling
stride, ending with depth 0. -/
def block_locator_indices (top_depth : Nat) : List Nat :=
  block_locator_loop (top_depth + 1) top_depth 1 0

/-! ## Balance -/

/-- A key hash (`short_hash`, a fixed array of bytes). -/
abbrev short_hash := List Nat

/-- The method `bdb_blockchain::fetch_balance(pubkey_hash, handle_fetch)`: the body is
empty. -/
def fetch_balance (_c : Collaborators) (_e : bdb_env) (_pubkey_hash : short_hash) :
    List Event :=
  []

/-! ## Reading a trace -/

/-- Recognises an invocation of a fetch handler. -/
def Event.is_handle_fetch : Event → Bool
  | Event.handle_fetch _ _ => true
  | _ => false

/-- Recognises an invocation of a locator handler. -/
def Event.is_handle_fetch_locator : Event → Bool
  | Event.handle_fetch_locator _ _ => true
  | _ => false

/-- Recognises an invocation of a store handler. -/
def Event.is_handle_store : Event → Bool
  | Event.handle_store _ _ => true
  | _ => false

/-- Recognises an invocation of a balance handler. -/
def Event.is_handle_fetch_balance : Event → Bool
  | Event.handle_fetch_balance _ _ => true
  | _ => false

/-- Recognises a commit or an abort of the given `txn_guard`. -/
def Event.resolves (id : Nat) : Event → Bool
  | Event.txn_commit i => i == id
  | Event.txn_abort i => i == id
  | _ => false

/-- Number of commits the given `txn_guard` receives. -/
def commits (id : Nat) (trace : List Event) : Nat := trace.count (Event.txn_commit id)

/-- Number of aborts the given `txn_guard` receives. -/
def aborts (id : Nat) (trace : List Event) : Nat := trace.count (Event.txn_abort id)

/-- The error codes handed to fetch handlers, in order. -/
def reported_errors : List Event → List error_code
  | [] => []
  | Event.handle_fetch ec _ :: rest => ec :: reported_errors rest
  | _ :: rest => reported_errors rest

/-- A transaction index is resolved when its record exists and decodes to the
given transaction. -/
def tx_resolves (c : Collaborators) (e : bdb_env) (i : Nat) (t : message_transaction) : Prop :=
  ∃ tx_record,
    Db.get e Db.db_txs_ (c.key_set (Index.num i)) = Outcome.returns (db_ret.ok, tx_record) ∧
      c.protobuf_to_transaction (c.parse_tx tx_record) = t

/-- The trace of a failed fetch. -/
def failed_fetch_trace : List Event :=
  [Event.txn_begin 0, Event.txn_abort 0,
    Event.handle_fetch error_code.missing_object message_block_default]

/-! ## A small concrete instance

A toy codec and store used to evaluate the definitions on concrete inputs: a block
record is the version byte followed by the transaction indices, a transaction
record is its version byte, and a digest is the pair of version and nonce (or
lock time). -/

namespace demo

/-- Toy key encoder: an index is its own single byte, a digest is its bytes. -/
def key_set : Index → data_chunk
  | Index.num n => [n]
  | Index.hash h => h

/-- Toy block parser. -/
def parse_block (d : data_chunk) : protobuf_Block :=
  { header := d.take 1, transactions := d.drop 1 }

/-- Toy transaction parser. -/
def parse_tx (d : data_chunk) : protobuf_Transaction := { payload := d }

/-- Toy header conversion: only the version is carried. -/
def protobuf_to_block_header (pb : protobuf_Block) : message_block :=
  { message_block_default with version := pb.header.headD 0 }

/-- Toy transaction conversion: only the version is carried. -/
def protobuf_to_transaction (pt : protobuf_Transaction) : message_transaction :=
  { version := pt.payload.headD 0, locktime := 0, inputs := [], outputs := [] }

/-- Toy header digest. -/
def hash_block_header (b : message_block) : hash_digest := [b.version, b.nonce]

/-- Toy transaction digest. -/
def hash_transaction (t : message_transaction) : hash_digest := [t.version, t.locktime]

/-- Toy transaction of a given version. -/
def tx (v : Nat) : message_transaction :=
  { version := v, locktime := 0, inputs := [], outputs := [] }

/-- Toy genesis block: version 1 with one transaction. -/
def genesis_block : message_block :=
  { message_block_default with version := 1, transactions := [tx 9] }

/-- Toy `save_block`: refuses a depth that is taken; otherwise writes the
transactions at fresh indices, then the block record, and the derived secondary
entries. -/
def save_block (e : bdb_env) (depth : Nat) (b : message_block) : Bool × bdb_env :=
  if (Table.find (key_set (Index.num depth)) e.blocks).isSome then (false, e)
  else
    let ids := List.range' (e.txs.length + 1) b.transactions.length
    let record := b.version :: ids
    (true,
      { blocks := e.blocks ++ [(key_set (Index.num depth), record)]
        blocks_hash := e.blocks_hash ++
          [(hash_block_header (protobuf_to_block_header (parse_block record)),
            key_set (Index.num depth))]
        txs := e.txs ++
          List.zipWith (fun i t => (key_set (Index.num i), [t.version])) ids b.transactions
        txs_hash := e.txs_hash ++
          List.zipWith
            (fun i t =>
              (hash_transaction (protobuf_to_transaction (parse_tx [t.version])),
                key_set (Index.num i)))
            ids b.transactions })

/-- Toy tip depth: the sentinel on an empty table, otherwise the largest depth. -/
def find_last_block_depth (e : bdb_env) : Nat :=
  match e.blocks with
  | [] => 2 ^ 32 - 1
  | _ :: _ => (e.blocks.map (fun kv => kv.1.headD 0)).foldl max 0

/-- Toy sampler: every depth from the tip down to 0. -/
def block_locator_indices (top : Nat) : List Nat := (List.range (top + 1)).reverse

/-- Toy pool insertion: a pool at capacity rejects, otherwise the block is
appended. -/
def orphans_add (p : orphans_pool) (b : message_block) : Bool × orphans_pool :=
  if p.capacity ≤ p.pool.length then (false, p)
  else (true, { p with pool := p.pool ++ [b] })

/-- Toy organizer pass: connects nothing. -/
def organize_start (s : bdb_blockchain) : bdb_blockchain × Nat := (s, 0)

/-- The toy collaborators. -/
def collab : Collaborators :=
  { key_set := key_set
    parse_block := parse_block
    parse_tx := parse_tx
    protobuf_to_block_header := protobuf_to_block_header
    protobuf_to_transaction := protobuf_to_transaction
    hash_block_header := hash_block_header
    hash_transaction := hash_transaction
    genesis_block := genesis_block
    save_block := save_block
    find_last_block_depth := find_last_block_depth
    block_locator_indices := block_locator_indices
    orphans_add := orphans_add
    organize_start := organize_start }

/-- A store holding block version 1 at depth 0 with transactions 1 and 2 (versions
7 and 8), and its secondary entries. -/
def env_good : bdb_env :=
  { blocks := [([0], [1, 1, 2])]
    blocks_hash := [([1, 0], [0])]
    txs := [([1], [7]), ([2], [8])]
    txs_hash := [([7, 0], [1]), ([8, 0], [2])] }

/-- The store `env_good` with the record of transaction 2 gone. -/
def env_missing_tx : bdb_env :=
  { blocks := [([0], [1, 1, 2])]
    blocks_hash := [([1, 0], [0])]
    txs := [([1], [7])]
    txs_hash := [([7, 0], [1])] }

/-- A store whose secondary entry for digest `[1, 0]` points at primary key `[5]`,
under which there is no block record. -/
def env_dangling : bdb_env :=
  { blocks := [([0], [1, 1, 2])]
    blocks_hash := [([1, 0], [5])]
    txs := [([1], [7]), ([2], [8])]
    txs_hash := [([7, 0], [1]), ([8, 0], [2])] }

/-- A store with block records at depths 0 and 2 and none at depth 1. -/
def env_gap : bdb_env :=
  { blocks := [([0], [1]), ([2], [3])]
    blocks_hash := [([1, 0], [0]), ([3, 0], [2])]
    txs := []
    txs_hash := [] }

/-- Toy `save_block` that fails: it writes the transaction records and then fails
on the block record. -/
def save_block_failing (e : bdb_env) (_depth : Nat) (b : message_block) : Bool × bdb_env :=
  let ids := List.range' (e.txs.length + 1) b.transactions.length
  (false,
    { e with
      txs := e.txs ++
        List.zipWith (fun i t => (key_set (Index.num i), [t.version])) ids b.transactions })

/-- The toy collaborators with the failing `save_block`. -/
def collab_failing : Collaborators := { collab with save_block := save_block_failing }

/-- The toy collaborators with the sampler `block_locator_indices` of the
repository in place of the dense toy. -/
def collab_sampled : Collaborators :=
  { collab with block_locator_indices := libbitcoin.block_locator_indices }

/-- A store with block records at depths 0 to 15 (block at depth `d` has version
`d + 1`) and no transactions. -/
def env_chain : bdb_env :=
  { blocks := (List.range 16).map (fun d => ([d], [d + 1]))
    blocks_hash := (List.range 16).map (fun d => ([d + 1, 0], [d]))
    txs := []
    txs_hash := [] }

/-- A handle as `initialize` leaves it, over the store `env_good`. -/
def fresh_handle : bdb_blockchain :=
  { env := env_good, orphans := { capacity := 10, pool := [] } }

/-- A handle whose orphan pool of capacity 10 holds ten blocks. -/
def full_handle : bdb_blockchain :=
  { env := env_good
    orphans := { capacity := 10, pool := List.replicate 10 genesis_block } }

end demo

/-! ## Integer helpers (`include/bitcoin/system/constants.hpp`) -/

/-- Modelled from the spec: the constant `varint_two_bytes` is declared in another
header; it is the marker byte `0xfd` from which the Bitcoin variable-length
integer takes three bytes. -/
def varint_two_bytes : Nat := 0xfd

/-- Modelled from the spec: the constant `max_uint16` is declared in another
header; it is the largest 16-bit unsigned value. -/
def max_uint16 : Nat := 0xffff

/-- Modelled from the spec: the constant `max_uint32` is declared in another
header; it is the largest 32-bit unsigned value. -/
def max_uint32 : Nat := 0xffffffff

/-- The function `variable_size(uint64_t value)`; the sizes of `uint8_t`, `uint16_t`,
`uint32_t` and `uint64_t` are 1, 2, 4 and 8. -/
def variable_size (value : Nat) : Nat :=
  if value < varint_two_bytes then 1
  else if value ≤ max_uint16 then 1 + 2
  else if value ≤ max_uint32 then 1 + 4
  else 1 + 8

/-- The function `is_integral_size(size_t bytes)`. -/
def is_integral_size (bytes : Nat) : Bool :=
  bytes == 1 || bytes == 2 || bytes == 4 || bytes == 8

/-- An integer type: its signedness and its width in bits. -/
structure int_type where
  is_signed : Bool
  bits : Nat
deriving DecidableEq, Repr

/-- The type `int32_t`. -/
def int32_t : int_type := { is_signed := true, bits := 32 }

/-- The type `uint32_t`. -/
def uint32_t : int_type := { is_signed := false, bits := 32 }

/-- The conversion `static_cast<Type>(x)` of an integer value: reduction into the
range of the type. -/
def static_cast (T : int_type) (x : Int) : Int :=
  if T.is_signed then (x + 2 ^ (T.bits - 1)) % 2 ^ T.bits - 2 ^ (T.bits - 1)
  else x % 2 ^ T.bits

/-- The template `to_half(Type value)`: `static_cast<Type>(value / 2)`, where the
division of the language rounds toward zero. -/
def to_half (T : int_type) (value : Int) : Int :=
  static_cast T (Int.tdiv value 2)

/-- The template `is_zero(Type value)`: comparison with `static_cast<Type>(zero)`,
where the constant `zero` of another header is 0. -/
def is_zero (T : int_type) (value : Int) : Bool :=
  value == static_cast T 0

/-- The template `lo_bit(Type value)`: `static_cast<Type>(value % 2)`, where the
remainder of the language takes the sign of the dividend. -/
def lo_bit (T : int_type) (value : Int) : Int :=
  static_cast T (Int.tmod value 2)

/-- The template `is_even(Type value)`. -/
def is_even (T : int_type) (value : Int) : Bool :=
  is_zero T (lo_bit T value)

/-- The template `is_odd(Type value)`. -/
def is_odd (T : int_type) (value : Int) : Bool :=
  !is_even T value

/-! ## AVX2 set and get (`include/bitcoin/system/intrinsics/xcpu/functional256.hpp`) -/

namespace system

/-- The type `xint256_t` (`__m256i`): a 256-bit value, as a number below `2 ^ 256`. -/
abbrev xint256_t := Nat

/-- The value whose lanes of the given width are the listed elements, lane zero
first. -/
def pack_lanes (width : Nat) : List Nat → Nat
  | [] => 0
  | e :: rest => e % 2 ^ width + 2 ^ width * pack_lanes width rest

/-- The lane of the given width at the given position. -/
def extract_lane (width : Nat) (a : xint256_t) (lane : Nat) : Nat :=
  (a / 2 ^ (width * lane)) % 2 ^ width

/-- The intrinsic `_mm256_set_epi64x`: the arguments come highest lane first, and `e0`
becomes lane zero. -/
def _mm256_set_epi64x
    (e3 e2 e1 e0 : Nat) : xint256_t :=
  pack_lanes 64
    [e0, e1, e2, e3]

/-- The intrinsic `_mm256_set_epi32`: the arguments come highest lane first, and `e0`
becomes lane zero. -/
def _mm256_set_epi32
    (e7 e6 e5 e4 e3 e2 e1 e0 : Nat) : xint256_t :=
  pack_lanes 32
    [e0, e1, e2, e3, e4, e5, e6, e7]

/-- The intrinsic `_mm256_set_epi16`: the arguments come highest lane first, and `e0`
becomes lane zero. -/
def _mm256_set_epi16
    (e15 e14 e13 e12 e11 e10 e9 e8
      e7 e6 e5 e4 e3 e2 e1 e0 : Nat) : xint256_t :=
  pack_lanes 16
    [e0, e1, e2, e3, e4, e5, e6, e7,
      e8, e9, e10, e11, e12, e13, e14, e15]

/-- The intrinsic `_mm256_set_epi8`: the arguments come highest lane first, and `e0`
becomes lane zero. -/
def _mm256_set_epi8
    (e31 e30 e29 e28 e27 e26 e25 e24
      e23 e22 e21 e20 e19 e18 e17 e16
      e15 e14 e13 e12 e11 e10 e9 e8
      e7 e6 e5 e4 e3 e2 e1 e0 : Nat) : xint256_t :=
  pack_lanes 8
    [e0, e1, e2, e3, e4, e5, e6, e7,
      e8, e9, e10, e11, e12, e13, e14, e15,
      e16, e17, e18, e19, e20, e21, e22, e23,
      e24, e25, e26, e27, e28, e29, e30, e31]

/-- The intrinsic `_mm256_extract_epi8`: the lane selected by the low bits of the index. -/
def _mm256_extract_epi8 (a : xint256_t) (index : Nat) : Nat :=
  extract_lane 8 a (index % 32)

/-- The intrinsic `_mm256_extract_epi16`: the lane selected by the low bits of the index. -/
def _mm256_extract_epi16 (a : xint256_t) (index : Nat) : Nat :=
  extract_lane 16 a (index % 16)

/-- The intrinsic `_mm256_extract_epi32`: the lane selected by the low bits of the index. -/
def _mm256_extract_epi32 (a : xint256_t) (index : Nat) : Nat :=
  extract_lane 32 a (index % 8)

/-- The intrinsic `_mm256_extract_epi64`: the lane selected by the low bits of the index. -/
def _mm256_extract_epi64 (a : xint256_t) (index : Nat) : Nat :=
  extract_lane 64 a (index % 4)

/-- The unsigned integer types `get` is defined for. -/
inductive uint_type where
  | uint8_t
  | uint16_t
  | uint32_t
  | uint64_t
deriving DecidableEq, Repr

/-- The template `get<To, Lane>(xint256_t a)`. -/
def get (To : uint_type) (Lane : Nat) (a : xint256_t) : Nat :=
  match To with
  | uint_type.uint8_t => _mm256_extract_epi8 a Lane
  | uint_type.uint16_t => _mm256_extract_epi16 a Lane
  | uint_type.uint32_t => _mm256_extract_epi32 a Lane
  | uint_type.uint64_t => _mm256_extract_epi64 a Lane

/-- The overload `set<xint256_t>` taking 4 arguments of type `uint64_t`. -/
def set_uint64_t
    (x01 x02 x03 x04 : Nat) : xint256_t :=
  _mm256_set_epi64x
    x04 x03 x02 x01

/-- The overload `set<xint256_t>` taking 8 arguments of type `uint32_t`. -/
def set_uint32_t
    (x01 x02 x03 x04 x05 x06 x07 x08 : Nat) : xint256_t :=
  _mm256_set_epi32
    x08 x07 x06 x05 x04 x03 x02 x01

/-- The overload `set<xint256_t>` taking 16 arguments of type `uint16_t`. -/
def set_uint16_t
    (x01 x02 x03 x04 x05 x06 x07 x08
      x09 x10 x11 x12 x13 x14 x15 x16 : Nat) : xint256_t :=
  _mm256_set_epi16
    x16 x15 x14 x13 x12 x11 x10 x09
    x08 x07 x06 x05 x04 x03 x02 x01

/-- The overload `set<xint256_t>` taking 32 arguments of type `uint8_t`. -/
def set_uint8_t
    (x01 x02 x03 x04 x05 x06 x07 x08
      x09 x10 x11 x12 x13 x14 x15 x16
      x17 x18 x19 x20 x21 x22 x23 x24
      x25 x26 x27 x28 x29 x30 x31 x32 : Nat) : xint256_t :=
  _mm256_set_epi8
    x32 x31 x30 x29 x28 x27 x26 x25
    x24 x23 x22 x21 x20 x19 x18 x17
    x16 x15 x14 x13 x12 x11 x10 x09
    x08 x07 x06 x05 x04 x03 x02 x01

/-- The eight 32-bit lanes of a word, lane zero first. -/
def lanes32 (a : xint256_t) : List Nat :=
  (List.range 8).map (extract_lane 32 a)

/-- The intrinsic `_mm256_or_si256`: bitwise or of the two words. -/
def _mm256_or_si256 (a b : xint256_t) : xint256_t :=
  a ||| b

/-- The intrinsic `_mm256_srli_epi32`: every 32-bit lane is shifted right by the low
eight bits of `imm8`, zeros coming in; a count above 31 clears the lane. -/
def _mm256_srli_epi32 (a : xint256_t) (imm8 : Int) : xint256_t :=
  pack_lanes 32
    ((lanes32 a).map
      (fun x => if 31 < (imm8 % 256).toNat then 0 else x >>> (imm8 % 256).toNat))

/-- The intrinsic `_mm256_slli_epi32`: every 32-bit lane is shifted left by the low
eight bits of `imm8` and keeps its low 32 bits; a count above 31 clears the lane. -/
def _mm256_slli_epi32 (a : xint256_t) (imm8 : Int) : xint256_t :=
  pack_lanes 32
    ((lanes32 a).map
      (fun x => if 31 < (imm8 % 256).toNat then 0 else (x <<< (imm8 % 256).toNat) % 2 ^ 32))

/-- The template `or_(a, b)`. -/
def or_ (a b : xint256_t) : xint256_t :=
  _mm256_or_si256 a b

/-- The template `shr_<B>(a)`. -/
def shr_ (B : Int) (a : xint256_t) : xint256_t :=
  _mm256_srli_epi32 a B

/-- The template `shl_<B>(a)`. -/
def shl_ (B : Int) (a : xint256_t) : xint256_t :=
  _mm256_slli_epi32 a B

/-- The template `ror_<B, S>(a)`. -/
def ror_ (B S : Int) (a : xint256_t) : xint256_t :=
  or_ (shr_ B a) (shl_ (S - B) a)

/-- The template `rol_<B, S>(a)`. -/
def rol_ (B S : Int) (a : xint256_t) : xint256_t :=
  or_ (shl_ B a) (shr_ (S - B) a)

end system

/-! ## Lemmas on the readers -/

theorem proto_read_ok {ProtoType : Type} (parse : data_chunk → ProtoType) (c : Collaborators)
    (e : bdb_env) (db : Db) (index : Index) (record : data_chunk)
    (h : Db.get e db (c.key_set index) = Outcome.returns (db_ret.ok, record)) :
    proto_read parse c e db index = Outcome.returns (some (parse record)) := by
  simp [proto_read, read, h]

theorem proto_read_fail {ProtoType : Type} (parse : data_chunk → ProtoType) (c : Collaborators)
    (e : bdb_env) (db : Db) (index : Index) (data : data_chunk)
    (h : Db.get e db (c.key_set index) = Outcome.returns (db_ret.DB_NOTFOUND, data)) :
    proto_read parse c e db index = Outcome.returns none := by
  simp [proto_read, read, h]

theorem proto_read_throws {ProtoType : Type} (parse : data_chunk → ProtoType)
    (c : Collaborators) (e : bdb_env) (db : Db) (index : Index) (errno : db_ret)
    (h : Db.get e db (c.key_set index) = Outcome.throws errno) :
    proto_read parse c e db index = Outcome.throws errno := by
  simp [proto_read, read, h]

theorem Db_get_txs_absent (e : bdb_env) (key : data_chunk) (h : Table.find key e.txs = none) :
    Db.get e Db.db_txs_ key = Outcome.returns (db_ret.DB_NOTFOUND, []) := by
  simp [Db.get, h]

theorem Db_get_txs_present (e : bdb_env) (key record : data_chunk)
    (h : Table.find key e.txs = some record) :
    Db.get e Db.db_txs_ key = Outcome.returns (db_ret.ok, record) := by
  simp [Db.get, h]

theorem Db_get_blocks_present (e : bdb_env) (key record : data_chunk)
    (h : Table.find key e.blocks = some record) :
    Db.get e Db.db_blocks_ key = Outcome.returns (db_ret.ok, record) := by
  simp [Db.get, h]

theorem Db_get_blocks_absent (e : bdb_env) (key : data_chunk)
    (h : Table.find key e.blocks = none) :
    Db.get e Db.db_blocks_ key = Outcome.returns (db_ret.DB_NOTFOUND, []) := by
  simp [Db.get, h]

theorem fetch_block_txs_all (c : Collaborators) (e : bdb_env) (ids : List Nat)
    (ts : List message_transaction) (hidx : ∀ i ∈ ids, i < 2 ^ 32)
    (htxs : List.Forall₂ (tx_resolves c e) ids ts) (b : message_block) :
    fetch_block_txs c e Db.db_txs_ ids b =
      Outcome.returns (true, { b with transactions := b.transactions ++ ts }) := by
  induction htxs generalizing b with
  | nil => simp [fetch_block_txs]
  | @cons i t ids ts hit _ ih =>
    obtain ⟨tx_record, hget, hdec⟩ := hit
    have hi : i % 2 ^ 32 = i := Nat.mod_eq_of_lt (hidx i (List.mem_cons_self _ _))
    have hrest : ∀ j ∈ ids, j < 2 ^ 32 := fun j hj => hidx j (List.mem_cons_of_mem _ hj)
    rw [fetch_block_txs, hi, proto_read_ok c.parse_tx c e Db.db_txs_ (Index.num i) tx_record hget]
    simp only []
    rw [ih hrest, hdec]
    simp

theorem fetch_block_txs_returns (c : Collaborators) (e : bdb_env) (ids : List Nat)
    (b : message_block) :
    ∃ r, fetch_block_txs c e Db.db_txs_ ids b = Outcome.returns r := by
  induction ids generalizing b with
  | nil => exact ⟨_, rfl⟩
  | cons j rest ih =>
    rw [fetch_block_txs]
    cases hfind : Table.find (c.key_set (Index.num (j % 2 ^ 32))) e.txs with
    | none =>
      rw [proto_read_fail c.parse_tx c e Db.db_txs_ _ [] (Db_get_txs_absent e _ hfind)]
      exact ⟨_, rfl⟩
    | some v =>
      rw [proto_read_ok c.parse_tx c e Db.db_txs_ _ v (Db_get_txs_present e _ v hfind)]
      exact ih _

theorem fetch_block_txs_missing (c : Collaborators) (e : bdb_env) (ids : List Nat)
    (h : ∃ i ∈ ids, i < 2 ^ 32 ∧ Table.find (c.key_set (Index.num i)) e.txs = none)
    (b : message_block) :
    ∃ partly, fetch_block_txs c e Db.db_txs_ ids b = Outcome.returns (false, partly) := by
  induction ids generalizing b with
  | nil => simp at h
  | cons j rest ih =>
    rw [fetch_block_txs]
    cases hfind : Table.find (c.key_set (Index.num (j % 2 ^ 32))) e.txs with
    | none =>
      rw [proto_read_fail c.parse_tx c e Db.db_txs_ _ [] (Db_get_txs_absent e _ hfind)]
      exact ⟨b, rfl⟩
    | some v =>
      rw [proto_read_ok c.parse_tx c e Db.db_txs_ _ v (Db_get_txs_present e _ v hfind)]
      apply ih
      obtain ⟨i, hi, hlt, hnone⟩ := h
      rcases List.mem_cons.mp hi with rfl | hmem
      · exfalso
        rw [Nat.mod_eq_of_lt hlt, hnone] at hfind
        exact Option.noConfusion hfind
      · exact ⟨i, hmem, hlt, hnone⟩

theorem fetch_block_impl_absent (c : Collaborators) (e : bdb_env) (db_block_x : Db)
    (index : Index) (serial_block : message_block) (data : data_chunk)
    (h : Db.get e db_block_x (c.key_set index) = Outcome.returns (db_ret.DB_NOTFOUND, data)) :
    fetch_block_impl c e db_block_x Db.db_txs_ index serial_block =
      Outcome.returns (false, serial_block) := by
  simp [fetch_block_impl, proto_read_fail c.parse_block c e db_block_x index data h]

theorem fetch_block_impl_throws (c : Collaborators) (e : bdb_env) (db_block_x : Db)
    (index : Index) (serial_block : message_block) (errno : db_ret)
    (h : Db.get e db_block_x (c.key_set index) = Outcome.throws errno) :
    fetch_block_impl c e db_block_x Db.db_txs_ index serial_block = Outcome.throws errno := by
  simp [fetch_block_impl, proto_read_throws c.parse_block c e db_block_x index errno h]

theorem fetch_block_impl_all (c : Collaborators) (e : bdb_env) (db_block_x : Db)
    (index : Index) (serial_block : message_block) (record : data_chunk)
    (ts : List message_transaction)
    (hrec : Db.get e db_block_x (c.key_set index) = Outcome.returns (db_ret.ok, record))
    (hidx : ∀ i ∈ (c.parse_block record).transactions, i < 2 ^ 32)
    (htxs : List.Forall₂ (tx_resolves c e) (c.parse_block record).transactions ts) :
    fetch_block_impl c e db_block_x Db.db_txs_ index serial_block =
      Outcome.returns (true,
        { c.protobuf_to_block_header (c.parse_block record) with
          transactions :=
            (c.protobuf_to_block_header (c.parse_block record)).transactions ++ ts }) := by
  simp only [fetch_block_impl, proto_read_ok c.parse_block c e db_block_x index record hrec]
  exact fetch_block_txs_all c e _ ts hidx htxs _

theorem fetch_block_impl_missing_tx (c : Collaborators) (e : bdb_env) (db_block_x : Db)
    (index : Index) (serial_block : message_block) (record : data_chunk)
    (hrec : Db.get e db_block_x (c.key_set index) = Outcome.returns (db_ret.ok, record))
    (hmiss : ∃ i ∈ (c.parse_block record).transactions,
      i < 2 ^ 32 ∧ Table.find (c.key_set (Index.num i)) e.txs = none) :
    ∃ partly, fetch_block_impl c e db_block_x Db.db_txs_ index serial_block =
      Outcome.returns (false, partly) := by
  simp only [fetch_block_impl, proto_read_ok c.parse_block c e db_block_x index record hrec]
  exact fetch_block_txs_missing c e _ hmiss _

theorem fetch_block_impl_primary_returns (c : Collaborators) (e : bdb_env) (index : Index)
    (serial_block : message_block) :
    ∃ r, fetch_block_impl c e Db.db_blocks_ Db.db_txs_ index serial_block =
      Outcome.returns r := by
  unfold fetch_block_impl
  cases hfind : Table.find (c.key_set index) e.blocks with
  | none =>
    rw [proto_read_fail c.parse_block c e Db.db_blocks_ _ [] (Db_get_blocks_absent e _ hfind)]
    exact ⟨_, rfl⟩
  | some v =>
    rw [proto_read_ok c.parse_block c e Db.db_blocks_ _ v (Db_get_blocks_present e _ v hfind)]
    exact fetch_block_txs_returns c e _ _

theorem fetch_block_of_impl_false (c : Collaborators) (e : bdb_env) (index : Index)
    (partly : message_block)
    (h : fetch_block_impl c e (fetch_block_db index) Db.db_txs_ index
      message_block_default = Outcome.returns (false, partly)) :
    fetch_block c e index = failed_fetch_trace := by
  cases index with
  | num depth =>
    simp only [fetch_block_db] at h
    simp [fetch_block, fetch_block_by_depth, h, failed_fetch_trace]
  | hash block_hash =>
    simp only [fetch_block_db] at h
    simp [fetch_block, fetch_block_by_hash, h, failed_fetch_trace]

theorem fetch_block_of_impl_true (c : Collaborators) (e : bdb_env) (index : Index)
    (b : message_block)
    (h : fetch_block_impl c e (fetch_block_db index) Db.db_txs_ index
      message_block_default = Outcome.returns (true, b)) :
    fetch_block c e index =
      [Event.txn_begin 0, Event.txn_commit 0, Event.handle_fetch error_code.success b] := by
  cases index with
  | num depth =>
    simp only [fetch_block_db] at h
    simp [fetch_block, fetch_block_by_depth, h]
  | hash block_hash =>
    simp only [fetch_block_db] at h
    simp [fetch_block, fetch_block_by_hash, h]

/-! ## Fetching blocks: error reporting -/

/-- C1 (as stated, refuted): in the store `demo.env_missing_tx` the block record at
depth 0, which is also the record the digest `[1, 0]` resolves to, lists
transaction index 2, which has no record in the transactions table, while depth 1
and digest `[2, 0]` are absent.  Both fetches report `missing_object` in the first
situation exactly as in the second: the reported error is not a distinct one. -/
theorem fetch_block_missing_tx_error_not_distinct :
    Db.get demo.env_missing_tx Db.db_blocks_ (demo.collab.key_set (Index.num 0))
        = Outcome.returns (db_ret.ok, [1, 1, 2]) ∧
      Db.get demo.env_missing_tx Db.db_blocks_hash_ (demo.collab.key_set (Index.hash [1, 0]))
        = Outcome.returns (db_ret.ok, [1, 1, 2]) ∧
      (demo.collab.parse_block [1, 1, 2]).transactions = [1, 2] ∧
      Table.find (demo.collab.key_set (Index.num 2)) demo.env_missing_tx.txs = none ∧
      Db.get demo.env_missing_tx Db.db_blocks_ (demo.collab.key_set (Index.num 1))
        = Outcome.returns (db_ret.DB_NOTFOUND, []) ∧
      Db.get demo.env_missing_tx Db.db_blocks_hash_ (demo.collab.key_set (Index.hash [2, 0]))
        = Outcome.returns (db_ret.DB_NOTFOUND, []) ∧
      reported_errors (fetch_block_by_depth demo.collab demo.env_missing_tx 0)
        = [error_code.missing_object] ∧
      reported_errors (fetch_block_by_depth demo.collab demo.env_missing_tx 1)
        = [error_code.missing_object] ∧
      reported_errors (fetch_block_by_hash demo.collab demo.env_missing_tx [1, 0])
        = [error_code.missing_object] ∧
      reported_errors (fetch_block_by_hash demo.collab demo.env_missing_tx [2, 0])
        = [error_code.missing_object] := by
  decide

/-- C1 (amended): whenever the block record found for a depth or for a digest lists
a transaction index that has no record in the transactions table, the fetch aborts
its unit of work and reports `missing_object` with the default block, and every
fetch of an absent depth or digest in that store does exactly the same. -/
theorem fetch_block_missing_tx_reports_missing_object (c : Collaborators) (e : bdb_env)
    (index : Index) (record : data_chunk)
    (hrec : Db.get e (fetch_block_db index) (c.key_set index) =
      Outcome.returns (db_ret.ok, record))
    (hmiss : ∃ i ∈ (c.parse_block record).transactions,
      i < 2 ^ 32 ∧ Table.find (c.key_set (Index.num i)) e.txs = none) :
    fetch_block c e index =
        [Event.txn_begin 0, Event.txn_abort 0,
          Event.handle_fetch error_code.missing_object message_block_default] ∧
      ∀ absent : Index,
        (∃ data, Db.get e (fetch_block_db absent) (c.key_set absent) =
          Outcome.returns (db_ret.DB_NOTFOUND, data)) →
        fetch_block c e absent = fetch_block c e index := by
  obtain ⟨partly, hpartly⟩ :=
    fetch_block_impl_missing_tx c e _ index message_block_default record hrec hmiss
  have h1 := fetch_block_of_impl_false c e index partly hpartly
  refine ⟨h1, fun absent habs => ?_⟩
  obtain ⟨data, hdata⟩ := habs
  rw [h1]
  exact fetch_block_of_impl_false c e absent message_block_default
    (fetch_block_impl_absent c e _ absent message_block_default data hdata)

/-- C1 (amended), evaluated: depth 0 and digest `[1, 0]` of `demo.env_missing_tx`. -/
theorem fetch_block_missing_tx_reports_missing_object_witness :
    fetch_block demo.collab demo.env_missing_tx (Index.num 0) =
        [Event.txn_begin 0, Event.txn_abort 0,
          Event.handle_fetch error_code.missing_object message_block_default] ∧
      fetch_block demo.collab demo.env_missing_tx (Index.hash [1, 0]) =
        [Event.txn_begin 0, Event.txn_abort 0,
          Event.handle_fetch error_code.missing_object message_block_default] ∧
      fetch_block demo.collab demo.env_missing_tx (Index.num 1) =
        fetch_block demo.collab demo.env_missing_tx (Index.num 0) :=
  ⟨(fetch_block_missing_tx_reports_missing_object demo.collab demo.env_missing_tx
      (Index.num 0) [1, 1, 2] (by decide) ⟨2, by decide, by decide, by decide⟩).1,
    (fetch_block_missing_tx_reports_missing_object demo.collab demo.env_missing_tx
      (Index.hash [1, 0]) [1, 1, 2] (by decide) ⟨2, by decide, by decide, by decide⟩).1,
    (fetch_block_missing_tx_reports_missing_object demo.collab demo.env_missing_tx
      (Index.num 0) [1, 1, 2] (by decide) ⟨2, by decide, by decide, by decide⟩).2
      (Index.num 1) ⟨[], by decide⟩⟩

/-- C2 (as stated, refuted): in the store `demo.env_dangling` the secondary index
holds an entry for digest `[1, 0]` that resolves to primary key `[5]`, under which
no block record exists.  `Db::get` on the secondary handle throws
`DB_SECONDARY_BAD`, and `fetch_block_by_hash` on that digest is left by that
exception: its handler is not invoked, so no `IntegrityViolation` reaches it. -/
theorem fetch_block_by_hash_dangling_handler_not_invoked :
    Table.find (demo.collab.key_set (Index.hash [1, 0])) demo.env_dangling.blocks_hash
        = some [5] ∧
      Table.find [5] demo.env_dangling.blocks = none ∧
      Db.get demo.env_dangling Db.db_blocks_hash_ (demo.collab.key_set (Index.hash [1, 0]))
        = Outcome.throws db_ret.DB_SECONDARY_BAD ∧
      fetch_block_by_hash demo.collab demo.env_dangling [1, 0] =
        [Event.txn_begin 0, Event.exception db_ret.DB_SECONDARY_BAD] ∧
      (fetch_block_by_hash demo.collab demo.env_dangling [1, 0]).filter Event.is_handle_fetch
        = [] := by
  decide

/-- C2 (amended): whenever the secondary (digest) index holds an entry for a digest
but the primary block record that entry resolves to does not exist,
`fetch_block_by_hash` on that digest never reports success and reports no
integrity error: the read of the block record fails (`Db::get` throws
`DB_SECONDARY_BAD`, which ends the method), the handler is handed neither the
no-error code nor a block, and the unit of work is not committed. -/
theorem fetch_block_by_hash_dangling_never_succeeds (c : Collaborators) (e : bdb_env)
    (block_hash : hash_digest) (primary_key : data_chunk)
    (hsec : Table.find (c.key_set (Index.hash block_hash)) e.blocks_hash = some primary_key)
    (hprim : Table.find primary_key e.blocks = none) :
    fetch_block_by_hash c e block_hash =
        [Event.txn_begin 0, Event.exception db_ret.DB_SECONDARY_BAD] ∧
      (∀ (ec : error_code) (blk : message_block),
        Event.handle_fetch ec blk ∉ fetch_block_by_hash c e block_hash) ∧
      commits 0 (fetch_block_by_hash c e block_hash) = 0 := by
  have hget : Db.get e Db.db_blocks_hash_ (c.key_set (Index.hash block_hash)) =
      Outcome.throws db_ret.DB_SECONDARY_BAD := by
    simp [Db.get, hsec, hprim]
  have h := fetch_block_impl_throws c e Db.db_blocks_hash_ (Index.hash block_hash)
    message_block_default db_ret.DB_SECONDARY_BAD hget
  have htrace : fetch_block_by_hash c e block_hash =
      [Event.txn_begin 0, Event.exception db_ret.DB_SECONDARY_BAD] := by
    simp [fetch_block_by_hash, h]
  refine ⟨htrace, ?_, ?_⟩
  · intro ec blk
    rw [htrace]
    simp
  · rw [htrace]
    simp [commits, List.count_cons]

/-- C2 (amended), evaluated: digest `[1, 0]` of `demo.env_dangling`. -/
theorem fetch_block_by_hash_dangling_never_succeeds_witness :
    fetch_block_by_hash demo.collab demo.env_dangling [1, 0] =
        [Event.txn_begin 0, Event.exception db_ret.DB_SECONDARY_BAD] ∧
      (∀ (ec : error_code) (blk : message_block),
        Event.handle_fetch ec blk ∉ fetch_block_by_hash demo.collab demo.env_dangling [1, 0]) ∧
      commits 0 (fetch_block_by_hash demo.collab demo.env_dangling [1, 0]) = 0 :=
  fetch_block_by_hash_dangling_never_succeeds demo.collab demo.env_dangling [1, 0] [5]
    (by decide) (by decide)

/-! ## Fetching blocks: reconstruction -/

/-- C3: when the block record found under an index (a depth in `db_blocks_`, a digest
in `db_blocks_hash_`) decodes to the header `h` (a header carries no transactions)
and lists the transaction indices `i1, ..., in` (32-bit values), and every `ik` has
a transaction record decoding to `tk`, then `fetch_block_impl` returns `true` and
leaves in `serial_block` the block with header `h` whose transaction list is
exactly `[t1, ..., tn]`, whatever `serial_block` held before. -/
theorem fetch_block_impl_round_trip (c : Collaborators) (e : bdb_env) (db_block_x : Db)
    (index : Index) (serial_block : message_block) (record : data_chunk)
    (ts : List message_transaction)
    (hrec : Db.get e db_block_x (c.key_set index) = Outcome.returns (db_ret.ok, record))
    (hhdr : (c.protobuf_to_block_header (c.parse_block record)).transactions = [])
    (hidx : ∀ i ∈ (c.parse_block record).transactions, i < 2 ^ 32)
    (htxs : List.Forall₂
      (fun i t => ∃ tx_record,
        Db.get e Db.db_txs_ (c.key_set (Index.num i)) =
            Outcome.returns (db_ret.ok, tx_record) ∧
          c.protobuf_to_transaction (c.parse_tx tx_record) = t)
      (c.parse_block record).transactions ts) :
    fetch_block_impl c e db_block_x Db.db_txs_ index serial_block =
      Outcome.returns
        (true, { c.protobuf_to_block_header (c.parse_block record) with transactions := ts }) := by
  rw [fetch_block_impl_all c e db_block_x index serial_block record ts hrec hidx htxs, hhdr]
  simp

/-- C3, evaluated: the block at depth 0 of `demo.env_good`, by depth and by digest. -/
theorem fetch_block_impl_round_trip_witness :
    fetch_block_impl demo.collab demo.env_good Db.db_blocks_ Db.db_txs_ (Index.num 0)
        message_block_default =
        Outcome.returns (true, { message_block_default with
          version := 1, transactions := [demo.tx 7, demo.tx 8] }) ∧
      fetch_block_impl demo.collab demo.env_good Db.db_blocks_hash_ Db.db_txs_
        (Index.hash [1, 0]) message_block_default =
        Outcome.returns (true, { message_block_default with
          version := 1, transactions := [demo.tx 7, demo.tx 8] }) :=
  ⟨fetch_block_impl_round_trip demo.collab demo.env_good Db.db_blocks_ (Index.num 0)
      message_block_default [1, 1, 2] [demo.tx 7, demo.tx 8] (by decide) (by decide)
      (by decide)
      (List.Forall₂.cons ⟨[7], by decide, by decide⟩
        (List.Forall₂.cons ⟨[8], by decide, by decide⟩ List.Forall₂.nil)),
    fetch_block_impl_round_trip demo.collab demo.env_good Db.db_blocks_hash_
      (Index.hash [1, 0]) message_block_default [1, 1, 2] [demo.tx 7, demo.tx 8]
      (by decide) (by decide) (by decide)
      (List.Forall₂.cons ⟨[7], by decide, by decide⟩
        (List.Forall₂.cons ⟨[8], by decide, by decide⟩ List.Forall₂.nil))⟩

/-- C4: `fetch_block_by_depth` invokes its handler exactly once; when no block
record exists at the depth the handler receives `missing_object` and the default
block; when the record exists and every transaction index it lists resolves, the
handler receives the no-error code and the reconstructed block (the decoded header
followed by the decoded transactions, in the recorded order); and whenever the
handler receives `missing_object` the block it receives is the default one, never
a partly assembled one. -/
theorem fetch_block_by_depth_handler (c : Collaborators) (e : bdb_env) (depth : Nat) :
    ((fetch_block_by_depth c e depth).filter Event.is_handle_fetch).length = 1 ∧
      (Table.find (c.key_set (Index.num depth)) e.blocks = none →
        (fetch_block_by_depth c e depth).filter Event.is_handle_fetch =
          [Event.handle_fetch error_code.missing_object message_block_default]) ∧
      (∀ (record : data_chunk) (ts : List message_transaction),
        Table.find (c.key_set (Index.num depth)) e.blocks = some record →
        (∀ i ∈ (c.parse_block record).transactions, i < 2 ^ 32) →
        List.Forall₂
          (fun i t => ∃ tx_record,
            Table.find (c.key_set (Index.num i)) e.txs = some tx_record ∧
              c.protobuf_to_transaction (c.parse_tx tx_record) = t)
          (c.parse_block record).transactions ts →
        (fetch_block_by_depth c e depth).filter Event.is_handle_fetch =
          [Event.handle_fetch error_code.success
            { c.protobuf_to_block_header (c.parse_block record) with
              transactions :=
                (c.protobuf_to_block_header (c.parse_block record)).transactions ++ ts }]) ∧
      ∀ (ec : error_code) (blk : message_block),
        Event.handle_fetch ec blk ∈ fetch_block_by_depth c e depth →
        ec = error_code.missing_object → blk = message_block_default := by
  obtain ⟨r, hr⟩ := fetch_block_impl_primary_returns c e (Index.num depth)
    message_block_default
  refine ⟨?_, ?_, ?_, ?_⟩
  · unfold fetch_block_by_depth
    rw [hr]
    simp only []
    split <;> simp [Event.is_handle_fetch]
  · intro habs
    have h := fetch_block_impl_absent c e Db.db_blocks_ (Index.num depth)
      message_block_default [] (Db_get_blocks_absent e _ habs)
    simp [fetch_block_by_depth, h, Event.is_handle_fetch]
  · intro record ts hrec hidx htxs
    have htxs2 : List.Forall₂ (tx_resolves c e) (c.parse_block record).transactions ts := by
      refine List.Forall₂.imp ?_ htxs
      rintro i t ⟨tx_record, hfind, hdec⟩
      exact ⟨tx_record, Db_get_txs_present e _ tx_record hfind, hdec⟩
    have h := fetch_block_impl_all c e Db.db_blocks_ (Index.num depth) message_block_default
      record ts (Db_get_blocks_present e _ record hrec) hidx htxs2
    simp [fetch_block_by_depth, h, Event.is_handle_fetch]
  · intro ec blk hmem hec
    unfold fetch_block_by_depth at hmem
    rw [hr] at hmem
    simp only [] at hmem
    split at hmem
    · simp at hmem
      exact hmem.2
    · simp at hmem
      rw [hec] at hmem
      exact absurd hmem.1 (by decide)

/-- C4, evaluated: depth 1 (absent) and depth 0 (present) of `demo.env_good`. -/
theorem fetch_block_by_depth_handler_witness :
    (fetch_block_by_depth demo.collab demo.env_good 1).filter Event.is_handle_fetch =
        [Event.handle_fetch error_code.missing_object message_block_default] ∧
      (fetch_block_by_depth demo.collab demo.env_good 0).filter Event.is_handle_fetch =
        [Event.handle_fetch error_code.success
          { message_block_default with
            version := 1, transactions := [demo.tx 7, demo.tx 8] }] :=
  ⟨(fetch_block_by_depth_handler demo.collab demo.env_good 1).2.1 (by decide),
    (fetch_block_by_depth_handler demo.collab demo.env_good 0).2.2.1 [1, 1, 2]
      [demo.tx 7, demo.tx 8] (by decide) (by decide)
      (List.Forall₂.cons ⟨[7], by decide, by decide⟩
        (List.Forall₂.cons ⟨[8], by decide, by decide⟩ List.Forall₂.nil))⟩

/-! ## Setup -/

/-- C5: whatever the store held before, when saving the genesis block (into the
truncated store) succeeds, `setup` returns `true` and the committed store is
exactly what `save_block` makes of the empty store, depth 0 and the genesis block;
it is the same for every prior content.  Given that a successful `save_block` adds
the one block record under the key of its depth, the blocks table then holds
exactly one record, under the key of depth 0. -/
theorem setup_leaves_only_genesis (c : Collaborators) (on_disk : bdb_env)
    (hsave : (c.save_block (Db.truncate (Db.truncate on_disk Db.db_blocks_) Db.db_txs_) 0
      c.genesis_block).1 = true)
    (hone : ∀ (t : bdb_env) (d : Nat) (b : message_block), (c.save_block t d b).1 = true →
      ∃ record, (c.save_block t d b).2.blocks = t.blocks ++ [(c.key_set (Index.num d), record)]) :
    (setup c on_disk).1 = true ∧
      (setup c on_disk).2.1 = (c.save_block bdb_env.empty 0 c.genesis_block).2 ∧
      (∃ record, (setup c on_disk).2.1.blocks = [(c.key_set (Index.num 0), record)]) ∧
      (∀ prior : bdb_env, (setup c prior).2.1 = (setup c on_disk).2.1) := by
  have htr : ∀ x : bdb_env,
      Db.truncate (Db.truncate x Db.db_blocks_) Db.db_txs_ = bdb_env.empty := by
    intro x
    simp [Db.truncate, bdb_env.empty]
  rw [htr] at hsave
  have hstate : ∀ x : bdb_env,
      (setup c x).2.1 = (c.save_block bdb_env.empty 0 c.genesis_block).2 := by
    intro x
    simp [setup, bdb_blockchain_init, htr, hsave]
  refine ⟨?_, hstate on_disk, ?_, ?_⟩
  · simp [setup, bdb_blockchain_init, htr, hsave]
  · obtain ⟨record, hrec⟩ := hone bdb_env.empty 0 c.genesis_block hsave
    refine ⟨record, ?_⟩
    rw [hstate on_disk, hrec]
    simp [bdb_env.empty]
  · intro prior
    rw [hstate prior, hstate on_disk]

theorem demo_save_block_adds_one (t : bdb_env) (d : Nat) (b : message_block)
    (h : (demo.collab.save_block t d b).1 = true) :
    ∃ record, (demo.collab.save_block t d b).2.blocks =
      t.blocks ++ [(demo.collab.key_set (Index.num d), record)] := by
  simp only [demo.collab, demo.save_block] at h ⊢
  split at h
  · simp at h
  · rename_i hfree
    simp only [hfree]
    exact ⟨_, rfl⟩

/-- C5, evaluated: `setup` over the non-empty store `demo.env_good`. -/
theorem setup_leaves_only_genesis_witness :
    (setup demo.collab demo.env_good).1 = true ∧
      (setup demo.collab demo.env_good).2.1 =
        (demo.collab.save_block bdb_env.empty 0 demo.collab.genesis_block).2 ∧
      (∃ record, (setup demo.collab demo.env_good).2.1.blocks =
        [(demo.collab.key_set (Index.num 0), record)]) ∧
      (∀ prior : bdb_env,
        (setup demo.collab prior).2.1 = (setup demo.collab demo.env_good).2.1) :=
  setup_leaves_only_genesis demo.collab demo.env_good (by decide) demo_save_block_adds_one

/-! ## Units of work -/

/-- C6 (the code at the failing input): in the store `demo.env_dangling` the digest
`[1, 0]` has a secondary entry whose primary record is missing; `Db::get` throws
`DB_SECONDARY_BAD` and `fetch_block_by_hash` is left with its `txn_guard` neither
committed nor aborted.  On the other paths the guard is resolved exactly once: a
commit for digest `[1, 0]` and for depth 0 of `demo.env_good`, an abort for the
absent digest `[2, 0]` and for the absent depth 1, a commit in `setup` when the
genesis block is saved and an abort when saving it fails. -/
theorem fetch_block_by_hash_exception_leaves_txn_open :
    fetch_block_by_hash demo.collab demo.env_dangling [1, 0] =
        [Event.txn_begin 0, Event.exception db_ret.DB_SECONDARY_BAD] ∧
      commits 0 (fetch_block_by_hash demo.collab demo.env_dangling [1, 0]) +
        aborts 0 (fetch_block_by_hash demo.collab demo.env_dangling [1, 0]) = 0 ∧
      (commits 0 (fetch_block_by_hash demo.collab demo.env_good [1, 0]) = 1 ∧
        aborts 0 (fetch_block_by_hash demo.collab demo.env_good [1, 0]) = 0) ∧
      (commits 0 (fetch_block_by_hash demo.collab demo.env_good [2, 0]) = 0 ∧
        aborts 0 (fetch_block_by_hash demo.collab demo.env_good [2, 0]) = 1) ∧
      (commits 0 (fetch_block_by_depth demo.collab demo.env_good 0) = 1 ∧
        aborts 0 (fetch_block_by_depth demo.collab demo.env_good 0) = 0) ∧
      (commits 0 (fetch_block_by_depth demo.collab demo.env_good 1) = 0 ∧
        aborts 0 (fetch_block_by_depth demo.collab demo.env_good 1) = 1) ∧
      (commits 1 (setup demo.collab demo.env_good).2.2 = 1 ∧
        aborts 1 (setup demo.collab demo.env_good).2.2 = 0) ∧
      (commits 1 (setup demo.collab_failing demo.env_good).2.2 = 0 ∧
        aborts 1 (setup demo.collab_failing demo.env_good).2.2 = 1) := by
  decide

/-- C7 (the code at the failing inputs): on the empty store (the tip query gives the
sentinel) and on `demo.env_gap` (the record at the sampled depth 1 is missing)
`do_fetch_block_locator` reports `missing_object` and returns with its `txn_guard`
neither committed nor aborted; on `demo.env_good` it commits once. -/
theorem do_fetch_block_locator_early_return_leaves_txn_open :
    do_fetch_block_locator demo.collab bdb_env.empty =
        [Event.txn_begin 0, Event.log_error,
          Event.handle_fetch_locator error_code.missing_object []] ∧
      commits 0 (do_fetch_block_locator demo.collab bdb_env.empty) +
        aborts 0 (do_fetch_block_locator demo.collab bdb_env.empty) = 0 ∧
      do_fetch_block_locator demo.collab demo.env_gap =
        [Event.txn_begin 0, Event.log_fatal 1,
          Event.handle_fetch_locator error_code.missing_object []] ∧
      commits 0 (do_fetch_block_locator demo.collab demo.env_gap) +
        aborts 0 (do_fetch_block_locator demo.collab demo.env_gap) = 0 ∧
      commits 0 (do_fetch_block_locator demo.collab demo.env_good) +
        aborts 0 (do_fetch_block_locator demo.collab demo.env_good) = 1 := by
  decide

/-! ## Store -/

/-- C8 (as stated, refuted): the pool of `demo.full_handle` is at capacity and rejects
the insertion, yet the completion handler of `do_store` receives the no-error code
with status `orphan`. -/
theorem do_store_full_pool_reports_success :
    demo.full_handle.orphans.pool.length = demo.full_handle.orphans.capacity ∧
      (demo.collab.orphans_add demo.full_handle.orphans demo.genesis_block).1 = false ∧
      (do_store demo.collab demo.full_handle demo.genesis_block).2.filter Event.is_handle_store =
        [Event.handle_store error_code.success block_status.orphan] := by
  decide

/-- C8 (amended): when the orphan pool rejects the insertion of an inbound block,
`do_store` still runs the organizer and the checkpoint and hands its completion
handler the no-error code with status `orphan`; the rejection is not reported. -/
theorem do_store_rejected_insertion_reports_success (c : Collaborators) (s : bdb_blockchain)
    (stored_block : message_block)
    (hreject : (c.orphans_add s.orphans stored_block).1 = false) :
    (do_store c s stored_block).2 =
      [Event.orphans_add false,
        Event.organize_start
          (c.organize_start { s with orphans := (c.orphans_add s.orphans stored_block).2 }).2,
        Event.txn_checkpoint,
        Event.handle_store error_code.success block_status.orphan] := by
  simp [do_store, hreject]

/-- C8 (amended), evaluated: `do_store` on `demo.full_handle`. -/
theorem do_store_rejected_insertion_reports_success_witness :
    (do_store demo.collab demo.full_handle demo.genesis_block).2 =
      [Event.orphans_add false, Event.organize_start 0, Event.txn_checkpoint,
        Event.handle_store error_code.success block_status.orphan] :=
  do_store_rejected_insertion_reports_success demo.collab demo.full_handle demo.genesis_block
    (by decide)

/-- C9 (as stated, refuted): on `demo.fresh_handle` the organizer pass accepts no
block, and `do_store` issues the checkpoint once all the same. -/
theorem do_store_checkpoints_without_acceptance :
    (demo.collab.organize_start
        { demo.fresh_handle with
          orphans := (demo.collab.orphans_add demo.fresh_handle.orphans demo.genesis_block).2 }).2
        = 0 ∧
      (do_store demo.collab demo.fresh_handle demo.genesis_block).2 =
        [Event.orphans_add true, Event.organize_start 0, Event.txn_checkpoint,
          Event.handle_store error_code.success block_status.orphan] ∧
      (do_store demo.collab demo.fresh_handle demo.genesis_block).2.count Event.txn_checkpoint
        = 1 := by
  decide

/-- C9 (amended): for every store request the checkpoint is issued exactly once,
after the organizer pass and before the completion handler, whatever number of
blocks the pass accepted. -/
theorem do_store_checkpoints_exactly_once (c : Collaborators) (s : bdb_blockchain)
    (stored_block : message_block) :
    (do_store c s stored_block).2.count Event.txn_checkpoint = 1 ∧
      ∃ accepted_by_pool accepted_by_pass,
        (do_store c s stored_block).2 =
          [Event.orphans_add accepted_by_pool, Event.organize_start accepted_by_pass,
            Event.txn_checkpoint, Event.handle_store error_code.success block_status.orphan] := by
  refine ⟨?_, _, _, rfl⟩
  simp [do_store, List.count_cons]

/-! ## Secondary keys -/

/-- C10: the secondary key is a function of the stored record only.  Whatever the
database handle, the primary key, the prior content of the global `second_hash`
and the prior content of `second_key`, `get_block_hash` returns 0 and sets the
secondary key to the bytes of
`hash_block_header (protobuf_to_block_header (parse data))` with the size of the
digest, and `get_tx_hash` does the same with
`hash_transaction (protobuf_to_transaction (parse data))`; two calls on the same
data agree. -/
theorem secondary_key_derived_from_record (c : Collaborators) (db1 db2 : Db) (k1 k2 : Dbt)
    (data : Dbt) (g1 g2 : hash_digest) (sk1 sk2 : Dbt) :
    ((get_block_hash c g1 db1 k1 data sk1).ret = 0 ∧
      (get_block_hash c g1 db1 k1 data sk1).second_key.bytes =
        c.hash_block_header (c.protobuf_to_block_header (c.parse_block data.bytes)) ∧
      (get_block_hash c g1 db1 k1 data sk1).second_key.size =
        (c.hash_block_header (c.protobuf_to_block_header (c.parse_block data.bytes))).length ∧
      get_block_hash c g1 db1 k1 data sk1 = get_block_hash c g2 db2 k2 data sk2) ∧
    ((get_tx_hash c g1 db1 k1 data sk1).ret = 0 ∧
      (get_tx_hash c g1 db1 k1 data sk1).second_key.bytes =
        c.hash_transaction (c.protobuf_to_transaction (c.parse_tx data.bytes)) ∧
      (get_tx_hash c g1 db1 k1 data sk1).second_key.size =
        (c.hash_transaction (c.protobuf_to_transaction (c.parse_tx data.bytes))).length ∧
      get_tx_hash c g1 db1 k1 data sk1 = get_tx_hash c g2 db2 k2 data sk2) := by
  simp [get_block_hash, get_tx_hash, Dbt.bytes]

/-! ## Block locator -/

theorem fetch_locator_hashes_all (c : Collaborators) (e : bdb_env) (ids : List Nat)
    (h : ∀ d ∈ ids, (Table.find (c.key_set (Index.num d)) e.blocks).isSome = true)
    (acc : List hash_digest) :
    fetch_locator_hashes c e ids acc =
      Outcome.returns (Except.ok (acc ++ ids.map (header_digest_at c e))) := by
  induction ids generalizing acc with
  | nil => simp [fetch_locator_hashes]
  | cons d rest ih =>
    have hd := h d (List.mem_cons_self _ _)
    obtain ⟨record, hrec⟩ := Option.isSome_iff_exists.mp hd
    rw [fetch_locator_hashes,
      proto_read_ok c.parse_block c e Db.db_blocks_ (Index.num d) record
        (Db_get_blocks_present e _ record hrec)]
    simp only []
    rw [ih (fun x hx => h x (List.mem_cons_of_mem _ hx))]
    simp [header_digest_at, hrec]

theorem fetch_locator_hashes_first_missing (c : Collaborators) (e : bdb_env)
    (before : List Nat) (i : Nat) (after : List Nat)
    (hbefore : ∀ d ∈ before, (Table.find (c.key_set (Index.num d)) e.blocks).isSome = true)
    (hi : Table.find (c.key_set (Index.num i)) e.blocks = none) (acc : List hash_digest) :
    fetch_locator_hashes c e (before ++ i :: after) acc = Outcome.returns (Except.error i) := by
  induction before generalizing acc with
  | nil =>
    rw [List.nil_append, fetch_locator_hashes,
      proto_read_fail c.parse_block c e Db.db_blocks_ _ [] (Db_get_blocks_absent e _ hi)]
  | cons d rest ih =>
    obtain ⟨record, hrec⟩ := Option.isSome_iff_exists.mp (hbefore d (List.mem_cons_self _ _))
    rw [List.cons_append, fetch_locator_hashes,
      proto_read_ok c.parse_block c e Db.db_blocks_ (Index.num d) record
        (Db_get_blocks_present e _ record hrec)]
    exact ih (fun x hx => hbefore x (List.mem_cons_of_mem _ hx)) _

theorem exists_first_missing (c : Collaborators) (e : bdb_env) (ids : List Nat)
    (h : ∃ d ∈ ids, Table.find (c.key_set (Index.num d)) e.blocks = none) :
    ∃ before i after, ids = before ++ i :: after ∧
      (∀ d ∈ before, (Table.find (c.key_set (Index.num d)) e.blocks).isSome = true) ∧
      Table.find (c.key_set (Index.num i)) e.blocks = none := by
  induction ids with
  | nil => simp at h
  | cons j rest ih =>
    cases hj : Table.find (c.key_set (Index.num j)) e.blocks with
    | none => exact ⟨[], j, rest, rfl, by simp, hj⟩
    | some v =>
      obtain ⟨d, hd, hnone⟩ := h
      rcases List.mem_cons.mp hd with rfl | hmem
      · rw [hnone] at hj
        exact Option.noConfusion hj
      · obtain ⟨before, i, after, hsplit, hbefore, hi⟩ := ih ⟨d, hmem, hnone⟩
        refine ⟨j :: before, i, after, by rw [hsplit, List.cons_append], ?_, hi⟩
        intro x hx
        rcases List.mem_cons.mp hx with rfl | hx'
        · simp [hj]
        · exact hbefore x hx'

theorem fetch_locator_hashes_missing (c : Collaborators) (e : bdb_env) (ids : List Nat)
    (h : ∃ d ∈ ids, Table.find (c.key_set (Index.num d)) e.blocks = none)
    (acc : List hash_digest) :
    ∃ i ∈ ids, fetch_locator_hashes c e ids acc = Outcome.returns (Except.error i) := by
  obtain ⟨before, i, after, hsplit, hbefore, hi⟩ := exists_first_missing c e ids h
  refine ⟨i, by rw [hsplit]; simp, ?_⟩
  rw [hsplit]
  exact fetch_locator_hashes_first_missing c e before i after hbefore hi acc

theorem fetch_locator_hashes_run_all (c : Collaborators) (e : bdb_env) (ids : List Nat)
    (h : ∀ d ∈ ids, (Table.find (c.key_set (Index.num d)) e.blocks).isSome = true)
    (acc : List hash_digest) (reads : List Nat) :
    fetch_locator_hashes_run c e ids acc reads =
      Outcome.returns (Except.ok (acc ++ ids.map (header_digest_at c e)), reads ++ ids) := by
  induction ids generalizing acc reads with
  | nil => simp [fetch_locator_hashes_run]
  | cons d rest ih =>
    have hd := h d (List.mem_cons_self _ _)
    obtain ⟨record, hrec⟩ := Option.isSome_iff_exists.mp hd
    rw [fetch_locator_hashes_run,
      proto_read_ok c.parse_block c e Db.db_blocks_ (Index.num d) record
        (Db_get_blocks_present e _ record hrec)]
    simp only []
    rw [ih (fun x hx => h x (List.mem_cons_of_mem _ hx))]
    simp [header_digest_at, hrec]

theorem fetch_locator_hashes_run_first_missing (c : Collaborators) (e : bdb_env)
    (before : List Nat) (i : Nat) (after : List Nat)
    (hbefore : ∀ d ∈ before, (Table.find (c.key_set (Index.num d)) e.blocks).isSome = true)
    (hi : Table.find (c.key_set (Index.num i)) e.blocks = none) (acc : List hash_digest)
    (reads : List Nat) :
    fetch_locator_hashes_run c e (before ++ i :: after) acc reads =
      Outcome.returns (Except.error i, reads ++ before ++ [i]) := by
  induction before generalizing acc reads with
  | nil =>
    rw [List.nil_append, fetch_locator_hashes_run,
      proto_read_fail c.parse_block c e Db.db_blocks_ _ [] (Db_get_blocks_absent e _ hi)]
    simp
  | cons d rest ih =>
    obtain ⟨record, hrec⟩ := Option.isSome_iff_exists.mp (hbefore d (List.mem_cons_self _ _))
    rw [List.cons_append, fetch_locator_hashes_run,
      proto_read_ok c.parse_block c e Db.db_blocks_ (Index.num d) record
        (Db_get_blocks_present e _ record hrec)]
    simp only []
    rw [ih (fun x hx => hbefore x (List.mem_cons_of_mem _ hx))]
    simp

theorem fetch_locator_hashes_run_result (c : Collaborators) (e : bdb_env) (ids : List Nat) :
    ∀ (acc : List hash_digest) (reads : List Nat),
      (match fetch_locator_hashes_run c e ids acc reads with
        | Outcome.throws errno => Outcome.throws errno
        | Outcome.returns r => Outcome.returns r.1) = fetch_locator_hashes c e ids acc := by
  induction ids with
  | nil => intro acc reads; simp [fetch_locator_hashes_run, fetch_locator_hashes]
  | cons d rest ih =>
    intro acc reads
    rw [fetch_locator_hashes_run, fetch_locator_hashes]
    cases hread : proto_read c.parse_block c e Db.db_blocks_ (Index.num d) with
    | throws errno => rfl
    | returns r =>
      cases r with
      | none => rfl
      | some pb => exact ih _ _

theorem do_fetch_block_locator_run_events (c : Collaborators) (e : bdb_env) :
    (do_fetch_block_locator_run c e).events = do_fetch_block_locator c e := by
  unfold do_fetch_block_locator_run do_fetch_block_locator
  simp only []
  split
  · rfl
  · rw [← fetch_locator_hashes_run_result c e _ [] []]
    cases hrun : fetch_locator_hashes_run c e
        (c.block_locator_indices (c.find_last_block_depth e % 2 ^ 32)) [] [] with
    | throws errno => rfl
    | returns r =>
      obtain ⟨res, reads⟩ := r
      cases res with
      | error i => rfl
      | ok locator => rfl

/-- C11: for a store whose tip query returns a depth `t` other than the sentinel,
with `[d1, ..., dn] = block_locator_indices(t)`: when a block record exists at
every `dk`, `do_fetch_block_locator` commits and delivers success with the locator
whose `k`-th element is the header digest of the record stored at depth `dk` (so it
has exactly `n` elements, in the sampled order); when some `dk` has no block
record, the handler is invoked once, with `missing_object` and an empty locator. -/
theorem do_fetch_block_locator_samples_tip (c : Collaborators) (e : bdb_env) (t : Nat)
    (htip : c.find_last_block_depth e = t) (hne : t < 2 ^ 32 - 1) :
    ((∀ d ∈ c.block_locator_indices t,
        (Table.find (c.key_set (Index.num d)) e.blocks).isSome = true) →
      do_fetch_block_locator c e =
          [Event.txn_begin 0, Event.txn_commit 0,
            Event.handle_fetch_locator error_code.success
              ((c.block_locator_indices t).map (header_digest_at c e))] ∧
        ((c.block_locator_indices t).map (header_digest_at c e)).length =
          (c.block_locator_indices t).length) ∧
    ((∃ d ∈ c.block_locator_indices t,
        Table.find (c.key_set (Index.num d)) e.blocks = none) →
      (do_fetch_block_locator c e).filter Event.is_handle_fetch_locator =
        [Event.handle_fetch_locator error_code.missing_object []]) := by
  have hmod : c.find_last_block_depth e % 2 ^ 32 = t := by
    rw [htip]
    exact Nat.mod_eq_of_lt (by omega)
  have hsent : ¬ (t = 2 ^ 32 - 1) := by omega
  constructor
  · intro hall
    refine ⟨?_, by simp⟩
    unfold do_fetch_block_locator
    simp only [hmod, hsent, if_false]
    rw [fetch_locator_hashes_all c e _ hall []]
    simp
  · intro hmiss
    obtain ⟨i, _, hres⟩ := fetch_locator_hashes_missing c e _ hmiss []
    unfold do_fetch_block_locator
    simp only [hmod, hsent, if_false]
    rw [hres]
    simp [Event.is_handle_fetch_locator]

/-- C11, evaluated: the chain of 16 blocks `demo.env_chain` sampled from tip 15, and
the store `demo.env_gap` whose record at the sampled depth 1 is missing. -/
theorem do_fetch_block_locator_samples_tip_witness :
    do_fetch_block_locator demo.collab_sampled demo.env_chain =
        [Event.txn_begin 0, Event.txn_commit 0,
          Event.handle_fetch_locator error_code.success
            [[16, 0], [15, 0], [14, 0], [13, 0], [12, 0], [11, 0], [10, 0], [9, 0], [8, 0],
              [7, 0], [6, 0], [4, 0], [1, 0]]] ∧
      (do_fetch_block_locator demo.collab demo.env_gap).filter Event.is_handle_fetch_locator =
        [Event.handle_fetch_locator error_code.missing_object []] :=
  ⟨((do_fetch_block_locator_samples_tip demo.collab_sampled demo.env_chain 15 (by decide)
      (by decide)).1 (by decide)).1,
    (do_fetch_block_locator_samples_tip demo.collab demo.env_gap 2 (by decide) (by decide)).2
      ⟨1, by decide, by decide⟩⟩

theorem block_locator_loop_descends (fuel : Nat) :
    ∀ i step start : Nat, 0 < step → i < fuel →
      List.Sorted (fun a b => b < a) (block_locator_loop fuel i step start) ∧
        (∀ x ∈ block_locator_loop fuel i step start, x ≤ i) ∧
        (block_locator_loop fuel i step start).getLast? = some 0 := by
  induction fuel with
  | zero => intro i step start _ hi; omega
  | succ fuel ih =>
    intro i step start hstep hi
    rw [block_locator_loop]
    by_cases h0 : i = 0
    · simp [h0]
    · simp only [h0, if_false]
      have hstep1 : 0 < (if 10 ≤ start then step * 2 else step) := by
        split <;> omega
      have hlt : i - (if 10 ≤ start then step * 2 else step) < fuel := by omega
      obtain ⟨hsorted, hbound, hlast⟩ := ih (i - (if 10 ≤ start then step * 2 else step))
        (if 10 ≤ start then step * 2 else step) (start + 1) hstep1 hlt
      refine ⟨?_, ?_, ?_⟩
      · refine List.sorted_cons.mpr ⟨fun b hb => ?_, hsorted⟩
        have := hbound b hb
        omega
      · intro x hx
        rcases List.mem_cons.mp hx with rfl | hmem
        · exact le_refl _
        · have := hbound x hmem
          omega
      · rw [List.getLast?_cons, hlast]
        rfl

/-- C12: the sampler gives `[0]` for tip 0; for tip 15 it gives the ten most recent
depths 15, 14, ..., 6 followed by the strided depths 5, 3 and 0; and for every tip
the sequence is strictly descending (so no depth occurs twice) and ends with
depth 0. -/
theorem block_locator_indices_sampling :
    block_locator_indices 0 = [0] ∧
      block_locator_indices 15 = [15, 14, 13, 12, 11, 10, 9, 8, 7, 6, 5, 3, 0] ∧
      (block_locator_indices 15).take 10 = [15, 14, 13, 12, 11, 10, 9, 8, 7, 6] ∧
      ∀ tip_depth : Nat,
        (block_locator_indices tip_depth).Nodup ∧
          List.Sorted (fun a b => b < a) (block_locator_indices tip_depth) ∧
          (block_locator_indices tip_depth).getLast? = some 0 := by
  refine ⟨by decide, by decide, by decide, fun tip_depth => ?_⟩
  obtain ⟨hsorted, _, hlast⟩ :=
    block_locator_loop_descends (tip_depth + 1) tip_depth 1 0 (by omega) (by omega)
  refine ⟨?_, hsorted, hlast⟩
  have hpair : List.Pairwise (fun a b => b < a) (block_locator_indices tip_depth) := hsorted
  exact hpair.imp (fun hab => by omega)

/-- C18: `do_fetch_block_locator` treats the store as empty exactly when the tip
query returns the sentinel `2 ^ 32 - 1`.  In that case it delivers `missing_object`
with an empty locator, does not sample and reads no block record.  For every other
returned depth it samples the locator from that depth: when every sampled depth
holds a block record it reads the records at the sampled depths, in the sampled
order, and delivers their header digests; otherwise it reads up to the first
sampled depth without a record and delivers `missing_object` with an empty
locator.  The run that records the sampling and the reads performs the events of
`do_fetch_block_locator`. -/
theorem do_fetch_block_locator_sentinel (c : Collaborators) (e : bdb_env)
    (hret : c.find_last_block_depth e < 2 ^ 32) :
    (do_fetch_block_locator_run c e).events = do_fetch_block_locator c e ∧
      (Event.log_error ∈ do_fetch_block_locator c e ↔
        c.find_last_block_depth e = 2 ^ 32 - 1) ∧
      ((do_fetch_block_locator_run c e).sampled_from = none ↔
        c.find_last_block_depth e = 2 ^ 32 - 1) ∧
      (c.find_last_block_depth e = 2 ^ 32 - 1 →
        do_fetch_block_locator c e =
            [Event.txn_begin 0, Event.log_error,
              Event.handle_fetch_locator error_code.missing_object []] ∧
          (do_fetch_block_locator_run c e).reads = []) ∧
      (c.find_last_block_depth e ≠ 2 ^ 32 - 1 →
        (do_fetch_block_locator_run c e).sampled_from = some (c.find_last_block_depth e) ∧
          ((∀ d ∈ c.block_locator_indices (c.find_last_block_depth e),
              (Table.find (c.key_set (Index.num d)) e.blocks).isSome = true) →
            do_fetch_block_locator c e =
                [Event.txn_begin 0, Event.txn_commit 0,
                  Event.handle_fetch_locator error_code.success
                    ((c.block_locator_indices (c.find_last_block_depth e)).map
                      (header_digest_at c e))] ∧
              (do_fetch_block_locator_run c e).reads =
                c.block_locator_indices (c.find_last_block_depth e)) ∧
          (∀ (before : List Nat) (i : Nat) (after : List Nat),
            c.block_locator_indices (c.find_last_block_depth e) = before ++ i :: after →
            (∀ d ∈ before, (Table.find (c.key_set (Index.num d)) e.blocks).isSome = true) →
            Table.find (c.key_set (Index.num i)) e.blocks = none →
            do_fetch_block_locator c e =
                [Event.txn_begin 0, Event.log_fatal i,
                  Event.handle_fetch_locator error_code.missing_object []] ∧
              (do_fetch_block_locator_run c e).reads = before ++ [i])) := by
  have hmod : c.find_last_block_depth e % 2 ^ 32 = c.find_last_block_depth e :=
    Nat.mod_eq_of_lt hret
  have hev := do_fetch_block_locator_run_events c e
  by_cases hs : c.find_last_block_depth e = 2 ^ 32 - 1
  · have htrace : do_fetch_block_locator c e =
        [Event.txn_begin 0, Event.log_error,
          Event.handle_fetch_locator error_code.missing_object []] := by
      unfold do_fetch_block_locator
      simp only [hmod]
      rw [if_pos hs]
    have hrun : do_fetch_block_locator_run c e =
        { events :=
            [Event.txn_begin 0, Event.log_error,
              Event.handle_fetch_locator error_code.missing_object []]
          sampled_from := none
          reads := [] } := by
      unfold do_fetch_block_locator_run
      simp only [hmod]
      rw [if_pos hs]
    refine ⟨hev, ?_, ?_, ?_, ?_⟩
    · rw [htrace]
      exact ⟨fun _ => hs, fun _ => by simp⟩
    · rw [hrun]
      exact ⟨fun _ => hs, fun _ => rfl⟩
    · intro _
      exact ⟨htrace, by rw [hrun]⟩
    · intro hne
      exact absurd hs hne
  · have hall : (∀ d ∈ c.block_locator_indices (c.find_last_block_depth e),
          (Table.find (c.key_set (Index.num d)) e.blocks).isSome = true) →
        do_fetch_block_locator c e =
            [Event.txn_begin 0, Event.txn_commit 0,
              Event.handle_fetch_locator error_code.success
                ((c.block_locator_indices (c.find_last_block_depth e)).map
                  (header_digest_at c e))] ∧
          (do_fetch_block_locator_run c e).reads =
            c.block_locator_indices (c.find_last_block_depth e) := by
      intro hrec
      constructor
      · unfold do_fetch_block_locator
        simp only [hmod]
        rw [if_neg hs, fetch_locator_hashes_all c e _ hrec []]
        simp
      · unfold do_fetch_block_locator_run
        simp only [hmod]
        rw [if_neg hs, fetch_locator_hashes_run_all c e _ hrec [] []]
        simp
    have hmissing : ∀ (before : List Nat) (i : Nat) (after : List Nat),
        c.block_locator_indices (c.find_last_block_depth e) = before ++ i :: after →
        (∀ d ∈ before, (Table.find (c.key_set (Index.num d)) e.blocks).isSome = true) →
        Table.find (c.key_set (Index.num i)) e.blocks = none →
        do_fetch_block_locator c e =
            [Event.txn_begin 0, Event.log_fatal i,
              Event.handle_fetch_locator error_code.missing_object []] ∧
          (do_fetch_block_locator_run c e).reads = before ++ [i] := by
      intro before i after hsplit hbefore hi
      constructor
      · unfold do_fetch_block_locator
        simp only [hmod]
        rw [if_neg hs, hsplit,
          fetch_locator_hashes_first_missing c e before i after hbefore hi []]
      · unfold do_fetch_block_locator_run
        simp only [hmod]
        rw [if_neg hs, hsplit,
          fetch_locator_hashes_run_first_missing c e before i after hbefore hi [] []]
        simp
    have hsampled : (do_fetch_block_locator_run c e).sampled_from =
        some (c.find_last_block_depth e) := by
      unfold do_fetch_block_locator_run
      simp only [hmod]
      rw [if_neg hs]
      cases hrun : fetch_locator_hashes_run c e
          (c.block_locator_indices (c.find_last_block_depth e)) [] [] with
      | throws errno => rfl
      | returns r =>
        obtain ⟨res, reads⟩ := r
        cases res with
        | error i => rfl
        | ok locator => rfl
    have hnolog : Event.log_error ∉ do_fetch_block_locator c e := by
      unfold do_fetch_block_locator
      simp only [hmod]
      rw [if_neg hs]
      split <;> simp
    refine ⟨hev, ?_, ?_, ?_, ?_⟩
    · exact ⟨fun h => absurd h hnolog, fun h => absurd h hs⟩
    · rw [hsampled]
      exact ⟨fun h => Option.noConfusion h, fun h => absurd h hs⟩
    · intro h
      exact absurd h hs
    · intro _
      exact ⟨hsampled, hall, hmissing⟩

/-- C18, evaluated: the empty store (sentinel), the chain `demo.env_chain` sampled
from tip 15, and the store `demo.env_gap` whose record at the sampled depth 1 is
missing. -/
theorem do_fetch_block_locator_sentinel_witness :
    (do_fetch_block_locator demo.collab_sampled bdb_env.empty =
          [Event.txn_begin 0, Event.log_error,
            Event.handle_fetch_locator error_code.missing_object []] ∧
        (do_fetch_block_locator_run demo.collab_sampled bdb_env.empty).reads = []) ∧
      (do_fetch_block_locator demo.collab_sampled demo.env_chain =
          [Event.txn_begin 0, Event.txn_commit 0,
            Event.handle_fetch_locator error_code.success
              [[16, 0], [15, 0], [14, 0], [13, 0], [12, 0], [11, 0], [10, 0], [9, 0], [8, 0],
                [7, 0], [6, 0], [4, 0], [1, 0]]] ∧
        (do_fetch_block_locator_run demo.collab_sampled demo.env_chain).reads =
          [15, 14, 13, 12, 11, 10, 9, 8, 7, 6, 5, 3, 0]) ∧
      (do_fetch_block_locator demo.collab demo.env_gap =
          [Event.txn_begin 0, Event.log_fatal 1,
            Event.handle_fetch_locator error_code.missing_object []] ∧
        (do_fetch_block_locator_run demo.collab demo.env_gap).reads = [2, 1]) :=
  ⟨(do_fetch_block_locator_sentinel demo.collab_sampled bdb_env.empty (by decide)).2.2.2.1
      (by decide),
    ((do_fetch_block_locator_sentinel demo.collab_sampled demo.env_chain
      (by decide)).2.2.2.2 (by decide)).2.1 (by decide),
    ((do_fetch_block_locator_sentinel demo.collab demo.env_gap
      (by decide)).2.2.2.2 (by decide)).2.2 [2] 1 [0] (by decide) (by decide) (by decide)⟩

/-! ## Balance -/

/-- C13 (as stated, refuted): for the all-zero key hash over `demo.env_good`,
`fetch_balance` performs no event at all; its handler is invoked zero times, not
once. -/
theorem fetch_balance_handler_not_invoked :
    fetch_balance demo.collab demo.env_good (List.replicate 20 0) = [] ∧
      ((fetch_balance demo.collab demo.env_good (List.replicate 20 0)).filter
        Event.is_handle_fetch_balance).length = 0 := by
  decide

/-- C13 (amended): for every address `fetch_balance` returns without invoking its
handler: nothing is delivered, neither an error nor a balance. -/
theorem fetch_balance_delivers_nothing (c : Collaborators) (e : bdb_env)
    (pubkey_hash : short_hash) :
    fetch_balance c e pubkey_hash = [] ∧
      ((fetch_balance c e pubkey_hash).filter Event.is_handle_fetch_balance).length = 0 ∧
      ∀ (ec : error_code) (value : Nat),
        Event.handle_fetch_balance ec value ∉ fetch_balance c e pubkey_hash := by
  simp [fetch_balance]

/-! ## Store: order of the steps -/

/-- C19: for every inbound block and every state `do_store` performs exactly four
steps, in this order: it adds the block to the orphan pool, starts the organizer on
the state with the pool as the insertion left it, issues the checkpoint, and
invokes the completion handler with the no-error code and status `orphan`,
whatever the pool answered and whatever the organizer pass accepted. -/
theorem do_store_steps_in_order (c : Collaborators) (s : bdb_blockchain)
    (stored_block : message_block) :
    (do_store c s stored_block).2 =
        [Event.orphans_add (c.orphans_add s.orphans stored_block).1,
          Event.organize_start
            (c.organize_start
              { s with orphans := (c.orphans_add s.orphans stored_block).2 }).2,
          Event.txn_checkpoint,
          Event.handle_store error_code.success block_status.orphan] ∧
      (do_store c s stored_block).1 =
        (c.organize_start { s with orphans := (c.orphans_add s.orphans stored_block).2 }).1 ∧
      (do_store c s stored_block).2.filter Event.is_handle_store =
        [Event.handle_store error_code.success block_status.orphan] := by
  simp [do_store, Event.is_handle_store]

/-! ## Setup: failure -/

/-- C20: `setup` returns `false` exactly when `save_block` for the genesis block
returns `false`; in that case its unit of work is aborted once and never committed,
both truncations have been performed before the unit of work began, and the
committed store is the empty one: whenever the store held anything before, it is
not in its prior state. -/
theorem setup_failure_leaves_store_empty (c : Collaborators) (on_disk : bdb_env) :
    ((setup c on_disk).1 = false ↔
        (c.save_block (Db.truncate (Db.truncate on_disk Db.db_blocks_) Db.db_txs_) 0
          c.genesis_block).1 = false) ∧
      ((setup c on_disk).1 = false →
        (setup c on_disk).2.2 =
            [Event.txn_begin 0, Event.txn_commit 0, Event.db_truncate Db.db_blocks_,
              Event.db_truncate Db.db_txs_, Event.txn_begin 1, Event.save_block 0 false,
              Event.txn_abort 1] ∧
          aborts 1 (setup c on_disk).2.2 = 1 ∧
          commits 1 (setup c on_disk).2.2 = 0 ∧
          (setup c on_disk).2.1 = bdb_env.empty ∧
          (on_disk ≠ bdb_env.empty → (setup c on_disk).2.1 ≠ on_disk)) := by
  have htr : Db.truncate (Db.truncate on_disk Db.db_blocks_) Db.db_txs_ = bdb_env.empty := by
    simp [Db.truncate, bdb_env.empty]
  rw [htr]
  cases h : (c.save_block bdb_env.empty 0 c.genesis_block).1
  · have hstate : (setup c on_disk).2.1 = bdb_env.empty := by
      simp [setup, bdb_blockchain_init, htr, h]
    refine ⟨by simp [setup, bdb_blockchain_init, htr, h], fun _ => ⟨?_, ?_, ?_, hstate, ?_⟩⟩
    · simp [setup, bdb_blockchain_init, htr, h]
    · simp [setup, bdb_blockchain_init, htr, h, aborts, List.count_cons]
    · simp [setup, bdb_blockchain_init, htr, h, commits, List.count_cons]
    · intro hne heq
      exact hne (heq ▸ hstate)
  · have hret : (setup c on_disk).1 = true := by
      simp [setup, bdb_blockchain_init, htr, h]
    simp [hret]

/-- C20, evaluated: `setup` over `demo.env_good` with a `save_block` that fails after
writing the transaction records. -/
theorem setup_failure_leaves_store_empty_witness :
    (setup demo.collab_failing demo.env_good).2.2 =
        [Event.txn_begin 0, Event.txn_commit 0, Event.db_truncate Db.db_blocks_,
          Event.db_truncate Db.db_txs_, Event.txn_begin 1, Event.save_block 0 false,
          Event.txn_abort 1] ∧
      aborts 1 (setup demo.collab_failing demo.env_good).2.2 = 1 ∧
      commits 1 (setup demo.collab_failing demo.env_good).2.2 = 0 ∧
      (setup demo.collab_failing demo.env_good).2.1 = bdb_env.empty ∧
      (demo.env_good ≠ bdb_env.empty →
        (setup demo.collab_failing demo.env_good).2.1 ≠ demo.env_good) :=
  (setup_failure_leaves_store_empty demo.collab_failing demo.env_good).2 (by decide)

/-! ## Integer helpers -/

/-- C14: `variable_size(value)` is 1 when `value < 0xfd`, 3 when
`0xfd <= value <= 0xffff`, 5 when `0x10000 <= value <= 0xffffffff`, and 9 above
that; so it is always one of 1, 3, 5, 9, and it is non-decreasing in `value`. -/
theorem variable_size_is_varint_size (value : Nat) :
    (value < 0xfd → variable_size value = 1) ∧
      (0xfd ≤ value → value ≤ 0xffff → variable_size value = 3) ∧
      (0x10000 ≤ value → value ≤ 0xffffffff → variable_size value = 5) ∧
      (0x100000000 ≤ value → variable_size value = 9) ∧
      (variable_size value = 1 ∨ variable_size value = 3 ∨ variable_size value = 5 ∨
        variable_size value = 9) ∧
      ∀ larger : Nat, value ≤ larger → variable_size value ≤ variable_size larger := by
  refine ⟨?_, ?_, ?_, ?_, ?_, ?_⟩
  · intro h
    simp [variable_size, varint_two_bytes, h]
  · intro h1 h2
    simp only [variable_size, varint_two_bytes, max_uint16, max_uint32]
    split_ifs <;> omega
  · intro h1 h2
    simp only [variable_size, varint_two_bytes, max_uint16, max_uint32]
    split_ifs <;> omega
  · intro h
    simp only [variable_size, varint_two_bytes, max_uint16, max_uint32]
    split_ifs <;> omega
  · simp only [variable_size, varint_two_bytes, max_uint16, max_uint32]
    split_ifs <;> omega
  · intro larger h
    simp only [variable_size, varint_two_bytes, max_uint16, max_uint32]
    split_ifs <;> omega

/-- C14, evaluated at the boundaries of the four ranges. -/
theorem variable_size_is_varint_size_witness :
    variable_size 0xfc = 1 ∧ variable_size 0xfd = 3 ∧ variable_size 0xffff = 3 ∧
      variable_size 0x10000 = 5 ∧ variable_size 0xffffffff = 5 ∧
      variable_size 0x100000000 = 9 ∧ variable_size 0xffffffffffffffff = 9 ∧
      variable_size 0xfc ≤ variable_size 0xfd :=
  ⟨(variable_size_is_varint_size 0xfc).1 (by decide),
    (variable_size_is_varint_size 0xfd).2.1 (by decide) (by decide),
    (variable_size_is_varint_size 0xffff).2.1 (by decide) (by decide),
    (variable_size_is_varint_size 0x10000).2.2.1 (by decide) (by decide),
    (variable_size_is_varint_size 0xffffffff).2.2.1 (by decide) (by decide),
    (variable_size_is_varint_size 0x100000000).2.2.2.1 (by decide),
    (variable_size_is_varint_size 0xffffffffffffffff).2.2.2.1 (by decide),
    (variable_size_is_varint_size 0xfc).2.2.2.2.2 0xfd (by decide)⟩

/-- C15 (the code at the failing input): for the `int32_t` value -3, `to_half` gives
-1, while the floor of -3/2 is -2; -1 is not an integer `q` with `2 * q <= -3`.
The same happens at -1 (0 instead of -1).  At the even value -4 and at the
non-negative value 3 the result is the floor. -/
theorem to_half_negative_odd_not_floored :
    to_half int32_t (-3) = -1 ∧ Int.fdiv (-3) 2 = -2 ∧
      ¬ (2 * to_half int32_t (-3) ≤ -3) ∧
      to_half int32_t (-1) = 0 ∧ Int.fdiv (-1) 2 = -1 ∧
      to_half int32_t (-4) = -2 ∧ to_half int32_t 3 = 1 ∧ to_half uint32_t 3 = 1 := by
  decide

/-- C17: `is_integral_size(bytes)` is true exactly when `bytes` is 1, 2, 4 or 8; it
is false for 0, 3, 5, 6, 7 and for every value greater than 8. -/
theorem is_integral_size_exactly (bytes : Nat) :
    (is_integral_size bytes = true ↔ bytes = 1 ∨ bytes = 2 ∨ bytes = 4 ∨ bytes = 8) ∧
      is_integral_size 0 = false ∧ is_integral_size 3 = false ∧
      is_integral_size 5 = false ∧ is_integral_size 6 = false ∧
      is_integral_size 7 = false ∧
      (8 < bytes → is_integral_size bytes = false) := by
  refine ⟨by simp [is_integral_size, or_assoc], by decide, by decide, by decide, by decide,
    by decide, fun h => ?_⟩
  simp only [is_integral_size, Bool.or_eq_false_iff, beq_eq_false_iff_ne]
  omega

/-- C17, evaluated at 16 and at the sizes 1, 2, 4, 8. -/
theorem is_integral_size_exactly_witness :
    is_integral_size 16 = false ∧ is_integral_size 1 = true ∧ is_integral_size 2 = true ∧
      is_integral_size 4 = true ∧ is_integral_size 8 = true :=
  ⟨(is_integral_size_exactly 16).2.2.2.2.2.2 (by decide),
    (is_integral_size_exactly 1).1.mpr (Or.inl rfl),
    (is_integral_size_exactly 2).1.mpr (Or.inr (Or.inl rfl)),
    (is_integral_size_exactly 4).1.mpr (Or.inr (Or.inr (Or.inl rfl))),
    (is_integral_size_exactly 8).1.mpr (Or.inr (Or.inr (Or.inr rfl)))⟩

/-! ## AVX2 set and get -/

theorem system.extract_lane_pack_lanes (width : Nat) (es : List Nat) :
    ∀ lane : Nat, lane < es.length →
      system.extract_lane width (system.pack_lanes width es) lane =
        es.getD lane 0 % 2 ^ width := by
  induction es with
  | nil => intro lane h; simp at h
  | cons e rest ih =>
    intro lane h
    have hpos : 0 < 2 ^ width := Nat.pow_pos (by decide)
    cases lane with
    | zero =>
      simp [system.extract_lane, system.pack_lanes, Nat.add_mul_mod_self_left]
    | succ k =>
      have hk : k < rest.length := by simpa using h
      have hdiv : (e % 2 ^ width + 2 ^ width * system.pack_lanes width rest) / 2 ^ width
          = system.pack_lanes width rest := by
        rw [Nat.add_mul_div_left _ _ hpos, Nat.div_eq_of_lt (Nat.mod_lt _ hpos), Nat.zero_add]
      have hrest := ih k hk
      simp only [system.extract_lane] at hrest ⊢
      rw [system.pack_lanes, Nat.mul_succ, Nat.add_comm (width * k) width, Nat.pow_add,
        ← Nat.div_div_eq_div_mul, hdiv, hrest]
      simp

/-- C16: for each of the four `set<xint256_t>` overloads (4 arguments of 64 bits, 8
of 32 bits, 16 of 16 bits, 32 of 8 bits) and every tuple of arguments of the
element width, written `xs 0, xs 1, ...` in the order of the parameter list:
`get<To, i>` at the matching width returns `xs i` for every lane `i`; lane zero
holds the first argument. -/
theorem set_get_round_trip (xs : Nat → Nat) :
    ((∀ k < 4, xs k < 2 ^ 64) → ∀ i < 4,
        system.get system.uint_type.uint64_t i
          (system.set_uint64_t
            (xs 0) (xs 1) (xs 2) (xs 3)) = xs i) ∧
      ((∀ k < 8, xs k < 2 ^ 32) → ∀ i < 8,
        system.get system.uint_type.uint32_t i
          (system.set_uint32_t
            (xs 0) (xs 1) (xs 2) (xs 3) (xs 4) (xs 5) (xs 6) (xs 7)) = xs i) ∧
      ((∀ k < 16, xs k < 2 ^ 16) → ∀ i < 16,
        system.get system.uint_type.uint16_t i
          (system.set_uint16_t
            (xs 0) (xs 1) (xs 2) (xs 3) (xs 4) (xs 5) (xs 6) (xs 7)
            (xs 8) (xs 9) (xs 10) (xs 11) (xs 12) (xs 13) (xs 14) (xs 15)) = xs i) ∧
      ((∀ k < 32, xs k < 2 ^ 8) → ∀ i < 32,
        system.get system.uint_type.uint8_t i
          (system.set_uint8_t
            (xs 0) (xs 1) (xs 2) (xs 3) (xs 4) (xs 5) (xs 6) (xs 7)
            (xs 8) (xs 9) (xs 10) (xs 11) (xs 12) (xs 13) (xs 14) (xs 15)
            (xs 16) (xs 17) (xs 18) (xs 19) (xs 20) (xs 21) (xs 22) (xs 23)
            (xs 24) (xs 25) (xs 26) (xs 27) (xs 28) (xs 29) (xs 30) (xs 31)) = xs i) := by
  refine ⟨?_, ?_, ?_, ?_⟩
  · intro h i hi
    have key := system.extract_lane_pack_lanes 64
      [xs 0, xs 1, xs 2, xs 3] i (by simpa using hi)
    simp only [system.get, system.set_uint64_t, system._mm256_set_epi64x, system._mm256_extract_epi64,
      Nat.mod_eq_of_lt hi]
    rw [key]
    interval_cases i <;> exact Nat.mod_eq_of_lt (h _ (by decide))
  · intro h i hi
    have key := system.extract_lane_pack_lanes 32
      [xs 0, xs 1, xs 2, xs 3, xs 4, xs 5, xs 6, xs 7] i (by simpa using hi)
    simp only [system.get, system.set_uint32_t, system._mm256_set_epi32, system._mm256_extract_epi32,
      Nat.mod_eq_of_lt hi]
    rw [key]
    interval_cases i <;> exact Nat.mod_eq_of_lt (h _ (by decide))
  · intro h i hi
    have key := system.extract_lane_pack_lanes 16
      [xs 0, xs 1, xs 2, xs 3, xs 4, xs 5, xs 6, xs 7,
      xs 8, xs 9, xs 10, xs 11, xs 12, xs 13, xs 14, xs 15] i (by simpa using hi)
    simp only [system.get, system.set_uint16_t, system._mm256_set_epi16, system._mm256_extract_epi16,
      Nat.mod_eq_of_lt hi]
    rw [key]
    interval_cases i <;> exact Nat.mod_eq_of_lt (h _ (by decide))
  · intro h i hi
    have key := system.extract_lane_pack_lanes 8
      [xs 0, xs 1, xs 2, xs 3, xs 4, xs 5, xs 6, xs 7,
      xs 8, xs 9, xs 10, xs 11, xs 12, xs 13, xs 14, xs 15,
      xs 16, xs 17, xs 18, xs 19, xs 20, xs 21, xs 22, xs 23,
      xs 24, xs 25, xs 26, xs 27, xs 28, xs 29, xs 30, xs 31] i (by simpa using hi)
    simp only [system.get, system.set_uint8_t, system._mm256_set_epi8, system._mm256_extract_epi8,
      Nat.mod_eq_of_lt hi]
    rw [key]
    interval_cases i <;> exact Nat.mod_eq_of_lt (h _ (by decide))

/-- C16, evaluated: the arguments 1, 2, 3, ... and one lane for each width. -/
theorem set_get_round_trip_witness :
    system.get system.uint_type.uint64_t 2
        (system.set_uint64_t
          1 2 3 4) = 3 ∧
      system.get system.uint_type.uint32_t 7
        (system.set_uint32_t
          1 2 3 4 5 6 7 8) = 8 ∧
      system.get system.uint_type.uint16_t 0
        (system.set_uint16_t
          1 2 3 4 5 6 7 8 9 10 11 12 13 14 15 16) = 1 ∧
      system.get system.uint_type.uint8_t 31
        (system.set_uint8_t
          1 2 3 4 5 6 7 8 9 10 11 12 13 14 15 16
          17 18 19 20 21 22 23 24 25 26 27 28 29 30 31 32) = 32 :=
  ⟨(set_get_round_trip (fun k => k + 1)).1 (by decide) 2 (by decide),
    (set_get_round_trip (fun k => k + 1)).2.1 (by decide) 7 (by decide),
    (set_get_round_trip (fun k => k + 1)).2.2.1 (by decide) 0 (by decide),
    (set_get_round_trip (fun k => k + 1)).2.2.2 (by decide) 31 (by decide)⟩

/-! ## Locator digests and the secondary index -/

theorem Table.mem_of_find (key value : data_chunk) (t : Table)
    (h : Table.find key t = some value) : (key, value) ∈ t := by
  induction t with
  | nil => simp [Table.find] at h
  | cons kv rest ih =>
    obtain ⟨k, v⟩ := kv
    simp only [Table.find] at h
    by_cases hk : k = key
    · rw [if_pos hk] at h
      have hv : v = value := Option.some.inj h
      rw [hk, hv]
      exact List.mem_cons_self _ _
    · rw [if_neg hk] at h
      exact List.mem_cons_of_mem _ (ih h)

theorem Table.find_of_mem_nodup (t : Table) (hn : (t.map Prod.fst).Nodup)
    (key value : data_chunk) (h : (key, value) ∈ t) : Table.find key t = some value := by
  induction t with
  | nil => simp at h
  | cons kv rest ih =>
    obtain ⟨k, v⟩ := kv
    simp only [List.map_cons, List.nodup_cons] at hn
    simp only [Table.find]
    rcases List.mem_cons.mp h with heq | hmem
    · have hk : k = key := (congrArg Prod.fst heq).symm
      have hv : v = value := (congrArg Prod.snd heq).symm
      rw [if_pos hk, hv]
    · have hne : ¬ k = key := by
        intro hk
        apply hn.1
        rw [hk]
        exact List.mem_map.mpr ⟨(key, value), hmem, rfl⟩
      rw [if_neg hne]
      exact ih hn.2 hmem

theorem mem_associate_blocks_hash (c : Collaborators) (blocks : Table) (key data : data_chunk)
    (h : (key, data) ∈ blocks) :
    ∀ second_hash : hash_digest,
      (c.hash_block_header (c.protobuf_to_block_header (c.parse_block data)), key) ∈
        associate_blocks_hash c blocks second_hash := by
  induction blocks with
  | nil => simp at h
  | cons kv rest ih =>
    intro second_hash
    obtain ⟨k, v⟩ := kv
    simp only [associate_blocks_hash]
    rcases List.mem_cons.mp h with heq | hmem
    · have hk : key = k := congrArg Prod.fst heq
      have hv : data = v := congrArg Prod.snd heq
      rw [hk, hv]
      simp [get_block_hash, Dbt.bytes]
    · exact List.mem_cons_of_mem _ (ih hmem _)

/-- C21: for a store whose tip query returns a depth `t` other than the sentinel and
whose sampled depths all hold a block record, the locator `do_fetch_block_locator`
delivers lists, for every sampled depth `d`, a digest equal to the secondary key
`get_block_hash` derives from the record stored at `d` (whatever the other
arguments of the callback).  When the secondary index is the one Berkeley DB
derives from the block records through `get_block_hash`, it holds no key twice,
and the key of a digest is its bytes, then every such digest is a key of the
secondary index: `Db::get` on `db_blocks_hash_` returns under it the very record
stored at depth `d`, `fetch_block_by_hash` does what `fetch_block_by_depth` does on
`d`, and when the transactions of the record resolve it commits and hands its
handler the no-error code and the block rebuilt from that record. -/
theorem locator_digests_are_secondary_keys (c : Collaborators) (e : bdb_env) (t : Nat)
    (htip : c.find_last_block_depth e = t) (hne : t < 2 ^ 32 - 1)
    (hall : ∀ d ∈ c.block_locator_indices t,
      (Table.find (c.key_set (Index.num d)) e.blocks).isSome = true) :
    do_fetch_block_locator c e =
        [Event.txn_begin 0, Event.txn_commit 0,
          Event.handle_fetch_locator error_code.success
            ((c.block_locator_indices t).map (header_digest_at c e))] ∧
      (∀ d ∈ c.block_locator_indices t, ∀ record : data_chunk,
        Table.find (c.key_set (Index.num d)) e.blocks = some record →
        ∀ (g : hash_digest) (db : Db) (k sk : Dbt),
          header_digest_at c e d =
            (get_block_hash c g db k { data := record, size := record.length } sk).second_key.bytes) ∧
      (∀ second_hash : hash_digest,
        (∀ h : hash_digest, c.key_set (Index.hash h) = h) →
        e.blocks_hash = associate_blocks_hash c e.blocks second_hash →
        (e.blocks_hash.map Prod.fst).Nodup →
        ∀ d ∈ c.block_locator_indices t, ∀ record : data_chunk,
          Table.find (c.key_set (Index.num d)) e.blocks = some record →
          Db.get e Db.db_blocks_hash_ (c.key_set (Index.hash (header_digest_at c e d))) =
              Outcome.returns (db_ret.ok, record) ∧
            fetch_block_by_hash c e (header_digest_at c e d) = fetch_block_by_depth c e d ∧
            ∀ ts : List message_transaction,
              (∀ i ∈ (c.parse_block record).transactions, i < 2 ^ 32) →
              List.Forall₂
                (fun i tx => ∃ tx_record,
                  Table.find (c.key_set (Index.num i)) e.txs = some tx_record ∧
                    c.protobuf_to_transaction (c.parse_tx tx_record) = tx)
                (c.parse_block record).transactions ts →
              fetch_block_by_hash c e (header_digest_at c e d) =
                [Event.txn_begin 0, Event.txn_commit 0,
                  Event.handle_fetch error_code.success
                    { c.protobuf_to_block_header (c.parse_block record) with
                      transactions :=
                        (c.protobuf_to_block_header (c.parse_block record)).transactions ++
                          ts }]) := by
  have hmod : c.find_last_block_depth e % 2 ^ 32 = t := by
    rw [htip]
    exact Nat.mod_eq_of_lt (by omega)
  have hsent : ¬ (t = 2 ^ 32 - 1) := by omega
  refine ⟨?_, ?_, ?_⟩
  · unfold do_fetch_block_locator
    simp only [hmod, hsent, if_false]
    rw [fetch_locator_hashes_all c e _ hall []]
    simp
  · intro d _ record hrec g db k sk
    simp [header_digest_at, hrec, get_block_hash, Dbt.bytes]
  · intro second_hash hkey hassoc hnodup d _ record hrec
    have hdigest : header_digest_at c e d =
        c.hash_block_header (c.protobuf_to_block_header (c.parse_block record)) := by
      simp [header_digest_at, hrec]
    have hmem : (header_digest_at c e d, c.key_set (Index.num d)) ∈ e.blocks_hash := by
      rw [hassoc, hdigest]
      exact mem_associate_blocks_hash c e.blocks _ record
        (Table.mem_of_find _ _ _ hrec) second_hash
    have hsec : Table.find (header_digest_at c e d) e.blocks_hash =
        some (c.key_set (Index.num d)) :=
      Table.find_of_mem_nodup e.blocks_hash hnodup _ _ hmem
    have hget : Db.get e Db.db_blocks_hash_
        (c.key_set (Index.hash (header_digest_at c e d))) =
        Outcome.returns (db_ret.ok, record) := by
      simp [Db.get, hkey, hsec, hrec]
    have h1 : proto_read c.parse_block c e Db.db_blocks_hash_
        (Index.hash (header_digest_at c e d)) = Outcome.returns (some (c.parse_block record)) :=
      proto_read_ok c.parse_block c e Db.db_blocks_hash_ _ record hget
    have h2 : proto_read c.parse_block c e Db.db_blocks_ (Index.num d) =
        Outcome.returns (some (c.parse_block record)) :=
      proto_read_ok c.parse_block c e Db.db_blocks_ (Index.num d) record
        (Db_get_blocks_present e _ record hrec)
    refine ⟨hget, ?_, ?_⟩
    · unfold fetch_block_by_hash fetch_block_by_depth fetch_block_impl
      rw [h1, h2]
    · intro ts hidx htxs
      have htxs2 : List.Forall₂ (tx_resolves c e) (c.parse_block record).transactions ts := by
        refine List.Forall₂.imp ?_ htxs
        rintro i tx ⟨tx_record, hfind, hdec⟩
        exact ⟨tx_record, Db_get_txs_present e _ tx_record hfind, hdec⟩
      have h := fetch_block_impl_all c e Db.db_blocks_hash_
        (Index.hash (header_digest_at c e d)) message_block_default record ts hget hidx htxs2
      simp [fetch_block_by_hash, h]

/-- C21, evaluated: the chain `demo.env_chain` sampled from tip 15; the digest
emitted for depth 15 is `[16, 0]`, and `fetch_block_by_hash` on it delivers the
block of version 16 stored at depth 15. -/
theorem locator_digests_are_secondary_keys_witness :
    do_fetch_block_locator demo.collab_sampled demo.env_chain =
        [Event.txn_begin 0, Event.txn_commit 0,
          Event.handle_fetch_locator error_code.success
            [[16, 0], [15, 0], [14, 0], [13, 0], [12, 0], [11, 0], [10, 0], [9, 0], [8, 0],
              [7, 0], [6, 0], [4, 0], [1, 0]]] ∧
      Db.get demo.env_chain Db.db_blocks_hash_ (demo.collab_sampled.key_set (Index.hash [16, 0]))
        = Outcome.returns (db_ret.ok, [16]) ∧
      fetch_block_by_hash demo.collab_sampled demo.env_chain [16, 0] =
        [Event.txn_begin 0, Event.txn_commit 0,
          Event.handle_fetch error_code.success { message_block_default with version := 16 }] :=
  ⟨(locator_digests_are_secondary_keys demo.collab_sampled demo.env_chain 15 (by decide)
      (by decide) (by decide)).1,
    ((locator_digests_are_secondary_keys demo.collab_sampled demo.env_chain 15 (by decide)
      (by decide) (by decide)).2.2 (List.replicate 32 0) (fun _ => rfl) (by decide) (by decide)
      15 (by decide) [16] (by decide)).1,
    ((locator_digests_are_secondary_keys demo.collab_sampled demo.env_chain 15 (by decide)
      (by decide) (by decide)).2.2 (List.replicate 32 0) (fun _ => rfl) (by decide) (by decide)
      15 (by decide) [16] (by decide)).2.2 [] (by decide) List.Forall₂.nil⟩

/-! ## Parity helpers -/

theorem static_cast_of_small (T : int_type) (hbits : 8 ≤ T.bits) (x : Int)
    (hlo : -1 ≤ x) (hhi : x ≤ 1) (hs : T.is_signed = true ∨ 0 ≤ x) :
    static_cast T x = x := by
  have h7 : (2 : Int) ^ 7 ≤ 2 ^ (T.bits - 1) :=
    pow_le_pow_right₀ (by norm_num) (by omega)
  have h2 : (2 : Int) ^ T.bits = 2 * 2 ^ (T.bits - 1) := by
    rw [← pow_succ']
    congr 1
    omega
  have h8 : (2 : Int) ^ 7 ≤ 2 ^ T.bits := pow_le_pow_right₀ (by norm_num) (by omega)
  norm_num at h7 h8
  unfold static_cast
  by_cases hsg : T.is_signed = true
  · simp only [hsg, if_true]
    rw [h2]
    generalize (2 : Int) ^ (T.bits - 1) = P at h7 ⊢
    rw [Int.emod_eq_of_lt (by omega) (by omega)]
    omega
  · have hx : 0 ≤ x := by
      rcases hs with hs | hs
      · exact absurd hs hsg
      · exact hs
    simp only [hsg]
    generalize (2 : Int) ^ T.bits = Q at h8 ⊢
    exact Int.emod_eq_of_lt hx (by omega)

theorem tmod_two_cases (value : Int) :
    (0 ≤ value → (Int.tmod value 2 = 0 ∨ Int.tmod value 2 = 1)) ∧
      (value < 0 → (Int.tmod value 2 = 0 ∨ Int.tmod value 2 = -1)) ∧
      (Int.tmod value 2 = 0 ↔ 2 ∣ value) := by
  refine ⟨fun h => ?_, fun h => ?_, ⟨Int.dvd_of_tmod_eq_zero, Int.tmod_eq_zero_of_dvd⟩⟩
  · rw [Int.tmod_eq_emod h (by decide)]
    omega
  · have hneg : Int.tmod value 2 = -(Int.tmod (-value) 2) := by
      rw [Int.tmod_def, Int.tmod_def, Int.neg_tdiv]
      ring
    rw [hneg, Int.tmod_eq_emod (by omega) (by decide)]
    omega

/-- C22: for every value of an integer type of at least 8 bits (non-negative when
the type is unsigned): `is_even` holds exactly when the value is divisible by 2,
`is_odd` is the negation of `is_even`, `lo_bit` is 0 or 1 when the value is
non-negative, and for a negative value of a signed type `lo_bit` is 0 or -1 and
never 1. -/
theorem parity_helpers_correct (T : int_type) (value : Int) (hbits : 8 ≤ T.bits)
    (hval : T.is_signed = true ∨ 0 ≤ value) :
    (is_even T value = true ↔ 2 ∣ value) ∧
      is_odd T value = !is_even T value ∧
      (0 ≤ value → lo_bit T value = 0 ∨ lo_bit T value = 1) ∧
      (T.is_signed = true → value < 0 →
        (lo_bit T value = 0 ∨ lo_bit T value = -1) ∧ lo_bit T value ≠ 1) := by
  obtain ⟨hnonneg, hneg, hdvd⟩ := tmod_two_cases value
  have hrange : -1 ≤ Int.tmod value 2 ∧ Int.tmod value 2 ≤ 1 := by
    rcases le_or_lt 0 value with h | h
    · rcases hnonneg h with h1 | h1 <;> omega
    · rcases hneg h with h1 | h1 <;> omega
  have hside : T.is_signed = true ∨ 0 ≤ Int.tmod value 2 := by
    rcases hval with h | h
    · exact Or.inl h
    · rcases hnonneg h with h1 | h1 <;> right <;> omega
  have hlo : lo_bit T value = Int.tmod value 2 :=
    static_cast_of_small T hbits _ hrange.1 hrange.2 hside
  have hzero : static_cast T 0 = 0 :=
    static_cast_of_small T hbits 0 (by decide) (by decide) (Or.inr (le_refl 0))
  refine ⟨?_, rfl, ?_, ?_⟩
  · simp only [is_even, is_zero, hlo, hzero, beq_iff_eq]
    exact hdvd
  · intro h
    rw [hlo]
    exact hnonneg h
  · intro _ h
    rw [hlo]
    rcases hneg h with h1 | h1
    · exact ⟨Or.inl h1, by omega⟩
    · exact ⟨Or.inr h1, by omega⟩

/-- C22, evaluated: the `int32_t` values -3 and -4 and the `uint32_t` value 3. -/
theorem parity_helpers_correct_witness :
    (is_even int32_t (-3) = true ↔ (2 : Int) ∣ -3) ∧
      ((lo_bit int32_t (-3) = 0 ∨ lo_bit int32_t (-3) = -1) ∧ lo_bit int32_t (-3) ≠ 1) ∧
      (is_even int32_t (-4) = true ↔ (2 : Int) ∣ -4) ∧
      (lo_bit uint32_t 3 = 0 ∨ lo_bit uint32_t 3 = 1) :=
  ⟨(parity_helpers_correct int32_t (-3) (by decide) (Or.inl rfl)).1,
    (parity_helpers_correct int32_t (-3) (by decide) (Or.inl rfl)).2.2.2 rfl (by decide),
    (parity_helpers_correct int32_t (-4) (by decide) (Or.inl rfl)).1,
    (parity_helpers_correct uint32_t 3 (by decide) (Or.inr (by decide))).2.2.1 (by decide)⟩

/-! ## AVX2 rotation of 32-bit lanes -/

theorem system.pack_lanes_or (width : Nat) :
    ∀ xs ys : List Nat, xs.length = ys.length →
      system.pack_lanes width xs ||| system.pack_lanes width ys =
        system.pack_lanes width (List.zipWith (fun x y => x ||| y) xs ys) := by
  intro xs
  induction xs with
  | nil => intro ys h; cases ys <;> simp [system.pack_lanes] at h ⊢
  | cons x xs ih =>
    intro ys h
    cases ys with
    | nil => simp at h
    | cons y ys =>
      have hlen : xs.length = ys.length := by simpa using h
      have hpos : 0 < 2 ^ width := Nat.pow_pos (by decide)
      simp only [system.pack_lanes, List.zipWith_cons_cons]
      rw [← ih ys hlen]
      apply Nat.eq_of_testBit_eq
      intro j
      rw [Nat.testBit_or, Nat.add_comm (x % 2 ^ width), Nat.add_comm (y % 2 ^ width),
        Nat.add_comm ((x ||| y) % 2 ^ width),
        Nat.testBit_mul_pow_two_add _ (Nat.mod_lt _ hpos),
        Nat.testBit_mul_pow_two_add _ (Nat.mod_lt _ hpos),
        Nat.testBit_mul_pow_two_add _ (Nat.mod_lt _ hpos)]
      by_cases hj : j < width
      · simp [hj, Nat.testBit_mod_two_pow, Nat.testBit_or]
      · simp [hj, Nat.testBit_or]

theorem system.zipWith_map_map {α : Type} (f : Nat → Nat → Nat) (g h : α → Nat) (l : List α) :
    List.zipWith f (l.map g) (l.map h) = l.map (fun x => f (g x) (h x)) := by
  induction l with
  | nil => rfl
  | cons a l ih => simp [ih]

theorem system.extract_lane_lt (width : Nat) (a lane : Nat) :
    system.extract_lane width a lane < 2 ^ width :=
  Nat.mod_lt _ (Nat.pow_pos (by decide))

theorem system.mem_lanes32_lt (a x : Nat) (h : x ∈ system.lanes32 a) : x < 2 ^ 32 := by
  simp only [system.lanes32, List.mem_map] at h
  obtain ⟨j, _, rfl⟩ := h
  exact system.extract_lane_lt 32 a j

theorem system.rotate_lane (B : Nat) (h0 : 0 < B) (h : B < 32) (x : Nat) (hx : x < 2 ^ 32) :
    x >>> B ||| (x <<< (32 - B)) % 2 ^ 32 = x / 2 ^ B + x % 2 ^ B * 2 ^ (32 - B) := by
  have hpow : (2 : Nat) ^ 32 = 2 ^ B * 2 ^ (32 - B) := by
    rw [← Nat.pow_add]
    congr 1
    omega
  have hq : x / 2 ^ B < 2 ^ (32 - B) := by
    apply Nat.div_lt_of_lt_mul
    rw [← hpow]
    exact hx
  rw [Nat.shiftRight_eq_div_pow, Nat.shiftLeft_eq, hpow, Nat.mul_mod_mul_right,
    Nat.lor_comm, Nat.mul_comm (x % 2 ^ B), ← Nat.mul_add_lt_is_or hq, Nat.add_comm]

theorem system.rotate_lane_lt (B : Nat) (h : B < 32) (x : Nat) (hx : x < 2 ^ 32) :
    x / 2 ^ B + x % 2 ^ B * 2 ^ (32 - B) < 2 ^ 32 := by
  have hpow : (2 : Nat) ^ 32 = 2 ^ B * 2 ^ (32 - B) := by
    rw [← Nat.pow_add]
    congr 1
    omega
  have hq : x / 2 ^ B < 2 ^ (32 - B) := by
    apply Nat.div_lt_of_lt_mul
    rw [← hpow]
    exact hx
  have hr : x % 2 ^ B < 2 ^ B := Nat.mod_lt _ (Nat.pow_pos (by decide))
  have hr1 : x % 2 ^ B + 1 ≤ 2 ^ B := hr
  calc x / 2 ^ B + x % 2 ^ B * 2 ^ (32 - B)
      < 2 ^ (32 - B) + x % 2 ^ B * 2 ^ (32 - B) := by omega
    _ = (x % 2 ^ B + 1) * 2 ^ (32 - B) := by ring
    _ ≤ 2 ^ B * 2 ^ (32 - B) := Nat.mul_le_mul_right _ hr1
    _ = 2 ^ 32 := hpow.symm

theorem system.rotate_lane_back (B : Nat) (h0 : 0 < B) (h : B < 32) (x : Nat)
    (hx : x < 2 ^ 32) :
    (x / 2 ^ B + x % 2 ^ B * 2 ^ (32 - B)) / 2 ^ (32 - B) +
      (x / 2 ^ B + x % 2 ^ B * 2 ^ (32 - B)) % 2 ^ (32 - B) * 2 ^ (32 - (32 - B)) = x := by
  have hpow : (2 : Nat) ^ 32 = 2 ^ B * 2 ^ (32 - B) := by
    rw [← Nat.pow_add]
    congr 1
    omega
  have hq : x / 2 ^ B < 2 ^ (32 - B) := by
    apply Nat.div_lt_of_lt_mul
    rw [← hpow]
    exact hx
  have hs : 32 - (32 - B) = B := by omega
  have hpos : 0 < 2 ^ (32 - B) := Nat.pow_pos (by decide)
  rw [hs, Nat.add_mul_div_right _ _ hpos, Nat.add_mul_mod_self_right, Nat.div_eq_of_lt hq,
    Nat.mod_eq_of_lt hq, Nat.zero_add, Nat.mul_comm]
  exact Nat.mod_add_div x (2 ^ B)

theorem system.ror_eq_pack (B : Nat) (h0 : 0 < B) (h : B < 32) (a : Nat) :
    system.ror_ (B : Int) 32 a =
      system.pack_lanes 32
        ((system.lanes32 a).map (fun x => x / 2 ^ B + x % 2 ^ B * 2 ^ (32 - B))) := by
  have hc1 : ((B : Int) % 256).toNat = B := by omega
  have hc2 : (((32 : Int) - (B : Int)) % 256).toNat = 32 - B := by omega
  have hn1 : ¬ 31 < B := by omega
  have hn2 : ¬ 31 < 32 - B := by omega
  simp only [system.ror_, system.or_, system.shr_, system.shl_, system._mm256_or_si256,
    system._mm256_srli_epi32, system._mm256_slli_epi32, hc1, hc2, hn1, hn2, if_false]
  rw [system.pack_lanes_or 32 _ _ (by simp), system.zipWith_map_map]
  congr 1
  apply List.map_congr_left
  intro x hx
  exact system.rotate_lane B h0 h x (system.mem_lanes32_lt a x hx)

theorem system.rol_eq_ror (B : Nat) (h0 : 0 < B) (h : B < 32) (a : Nat) :
    system.rol_ (B : Int) 32 a = system.ror_ ((32 - B : Nat) : Int) 32 a := by
  have hc : (32 : Int) - ((32 - B : Nat) : Int) = (B : Int) := by omega
  have hd : (32 : Int) - (B : Int) = ((32 - B : Nat) : Int) := by omega
  simp only [system.rol_, system.ror_, system.or_, system._mm256_or_si256, hc, hd]
  exact Nat.lor_comm _ _

theorem system.lanes32_pack_lanes (ys : List Nat) (hlen : ys.length = 8) :
    system.lanes32 (system.pack_lanes 32 ys) = ys.map (fun y => y % 2 ^ 32) := by
  apply List.ext_getElem
  · simp [system.lanes32, hlen]
  · intro i h1 h2
    have hi : i < ys.length := by simpa using h2
    simp only [system.lanes32, List.getElem_map, List.getElem_range]
    rw [system.extract_lane_pack_lanes 32 ys i hi, List.getD_eq_getElem _ _ hi]

theorem system.pack_lanes_lanes32 (a : Nat) (ha : a < 2 ^ 256) :
    system.pack_lanes 32 (system.lanes32 a) = a := by
  show system.pack_lanes 32
    [system.extract_lane 32 a 0, system.extract_lane 32 a 1, system.extract_lane 32 a 2,
      system.extract_lane 32 a 3, system.extract_lane 32 a 4, system.extract_lane 32 a 5,
      system.extract_lane 32 a 6, system.extract_lane 32 a 7] = a
  simp only [system.pack_lanes, system.extract_lane]
  norm_num at ha ⊢
  omega

theorem system.ror_ror_back (B : Nat) (h0 : 0 < B) (h : B < 32) (a : Nat) (ha : a < 2 ^ 256) :
    system.ror_ ((32 - B : Nat) : Int) 32 (system.ror_ (B : Int) 32 a) = a := by
  rw [system.ror_eq_pack B h0 h a, system.ror_eq_pack (32 - B) (by omega) (by omega),
    system.lanes32_pack_lanes _ (by simp [system.lanes32]), List.map_map, List.map_map]
  have hmap : ∀ f : Nat → Nat, (∀ x ∈ system.lanes32 a, f x = x) →
      List.map f (system.lanes32 a) = system.lanes32 a := by
    intro f hf
    rw [List.map_congr_left hf, List.map_id']
  rw [hmap _ (fun x hx => by
    have hx32 := system.mem_lanes32_lt a x hx
    simp only [Function.comp]
    rw [Nat.mod_eq_of_lt (system.rotate_lane_lt B h x hx32)]
    exact system.rotate_lane_back B h0 h x hx32)]
  exact system.pack_lanes_lanes32 a ha

theorem system.extract_lane_ror (B : Nat) (h0 : 0 < B) (h : B < 32) (a lane : Nat)
    (hlane : lane < 8) :
    system.extract_lane 32 (system.ror_ (B : Int) 32 a) lane =
      system.extract_lane 32 a lane / 2 ^ B +
        system.extract_lane 32 a lane % 2 ^ B * 2 ^ (32 - B) := by
  rw [system.ror_eq_pack B h0 h a,
    system.extract_lane_pack_lanes 32 _ lane (by simpa [system.lanes32] using hlane),
    List.getD_eq_getElem _ _ (by simpa [system.lanes32] using hlane)]
  simp only [system.lanes32, List.getElem_map, List.getElem_range]
  exact Nat.mod_eq_of_lt (system.rotate_lane_lt B h _ (system.extract_lane_lt 32 a lane))

/-- C23: for every 256-bit word `a` and every bit count `B` with `0 < B < 32`,
`ror_<B, 32>(a)` rotates each of the eight 32-bit lanes right by `B` bits on its
own (the lane `x` becomes `x / 2 ^ B + (x mod 2 ^ B) * 2 ^ (32 - B)`: the upper bits
move down and the low `B` bits move to the top), and `rol_<B, 32>` undoes it:
`rol_(ror_(a)) = a` and `ror_(rol_(a)) = a`. -/
theorem ror_rol_rotate_lanes (a B : Nat) (ha : a < 2 ^ 256) (h0 : 0 < B) (h : B < 32) :
    (∀ lane < 8,
        system.extract_lane 32 (system.ror_ (B : Int) 32 a) lane =
          system.extract_lane 32 a lane / 2 ^ B +
            system.extract_lane 32 a lane % 2 ^ B * 2 ^ (32 - B)) ∧
      system.rol_ (B : Int) 32 (system.ror_ (B : Int) 32 a) = a ∧
      system.ror_ (B : Int) 32 (system.rol_ (B : Int) 32 a) = a := by
  refine ⟨fun lane hlane => system.extract_lane_ror B h0 h a lane hlane, ?_, ?_⟩
  · rw [system.rol_eq_ror B h0 h]
    exact system.ror_ror_back B h0 h a ha
  · rw [system.rol_eq_ror B h0 h a]
    have hback := system.ror_ror_back (32 - B) (by omega) (by omega) a ha
    have hs : 32 - (32 - B) = B := by omega
    rw [hs] at hback
    exact hback

/-- C23, evaluated: rotation by 8 of the word with lanes `0x12345678, 1, 2, 3, 4, 5,
6, 0x80000001`. -/
theorem ror_rol_rotate_lanes_witness :
    system.extract_lane 32
        (system.ror_ ((8 : Nat) : Int) 32
          (system.set_uint32_t 0x12345678 1 2 3 4 5 6 0x80000001)) 0 = 0x78123456 ∧
      system.rol_ ((8 : Nat) : Int) 32
        (system.ror_ ((8 : Nat) : Int) 32
          (system.set_uint32_t 0x12345678 1 2 3 4 5 6 0x80000001)) =
        system.set_uint32_t 0x12345678 1 2 3 4 5 6 0x80000001 ∧
      system.ror_ ((8 : Nat) : Int) 32
        (system.rol_ ((8 : Nat) : Int) 32
          (system.set_uint32_t 0x12345678 1 2 3 4 5 6 0x80000001)) =
        system.set_uint32_t 0x12345678 1 2 3 4 5 6 0x80000001 :=
  ⟨(ror_rol_rotate_lanes (system.set_uint32_t 0x12345678 1 2 3 4 5 6 0x80000001) 8
      (by decide) (by decide) (by decide)).1 0 (by decide),
    (ror_rol_rotate_lanes (system.set_uint32_t 0x12345678 1 2 3 4 5 6 0x80000001) 8
      (by decide) (by decide) (by decide)).2⟩

end libbitcoin
